import Mathlib

/-!
# ipftrace2: DWARF symbol discovery and mark-offset resolver

Shallow embedding of `src/dwarf.c` (`find_mark_offset`, `dwarf_scan_func_die`,
`ipft_dwarf_fill_sym2info`) and of the option validation of `src/src/ipftrace.c`
(`opt_init`, `opt_validate`), together with the properties of the resolver that
are checked against them.

Conventions of the embedding

* A debug-information entry is a record of the attributes the C code reads
  (`dwarf_tag`, `dwarf_diename`, `DW_AT_data_member_location`, `DW_AT_type`)
  plus the list of its children in sibling order.  Type references are
  indices into a store, so reference cycles are representable.
* `ptrdiff_t` is a 64 bit signed integer: every `offset + uval` goes through
  `to_ptrdiff`.
* A result `none` means that the C code has no defined result on that input:
  a null `dwarf_diename` handed to `strcmp`, or a recursion entered with a
  level above the ceiling.
-/

namespace Ipftrace

/-! ## Constants of `dwarf.h`, `libdw.h` and `dwarf.c` -/

def DW_TAG_formal_parameter : Nat := 0x05
def DW_TAG_label : Nat := 0x0a
def DW_TAG_member : Nat := 0x0d
def DW_TAG_pointer_type : Nat := 0x0f
def DW_TAG_structure_type : Nat := 0x13
def DW_TAG_union_type : Nat := 0x17
def DW_TAG_base_type : Nat := 0x24
def DW_TAG_subprogram : Nat := 0x2e
def DW_TAG_variable : Nat := 0x34

def DWARF_CB_OK : Int := 0

def MAX_RECURSE_LEVEL : Nat := 4

/-! ## Debug-information entries -/

/-- Outcome of reading `DW_AT_data_member_location` of a DIE: the attribute is
absent (`dwarf_attr` gives NULL), present but `dwarf_formudata` fails on it,
or present with an unsigned value. -/
inductive MemberLocation where
  | absent : MemberLocation
  | undecodable : MemberLocation
  | udata (v : Nat) : MemberLocation
deriving DecidableEq, Repr

/-- Attributes of one DIE that the resolver reads.  `type` is the target of
`DW_AT_type` when the attribute is there. -/
structure DieAttrs where
  tag : Nat
  name : Option String
  data_member_location : MemberLocation
  type : Option Nat
deriving DecidableEq, Repr

/-- DIE handle as `dwarf_child` and `dwarf_siblingof` see it: its own
attributes and its children in sibling order. -/
structure Dwarf_Die where
  attrs : DieAttrs
  children : List DieAttrs
deriving DecidableEq, Repr

/-- Debug-information store: resolves a reference to the DIE it names, or to
nothing when the reference dangles. -/
abbrev Dwarf := Nat → Option Dwarf_Die

/-- Embedding of `dwarf_formref_die (dwarf_attr (die, DW_AT_type, ..), ..)`:
NULL when the attribute is missing or does not resolve. -/
def dwarf_formref_die (g : Dwarf) (a : DieAttrs) : Option Dwarf_Die :=
  match a.type with
  | none => none
  | some r => g r

/-! ## Machine integers -/

/-- Conversion of a mathematical integer to `ptrdiff_t` (two's complement,
64 bits). -/
def to_ptrdiff (x : Int) : Int :=
  (x + 9223372036854775808) % 18446744073709551616 - 9223372036854775808

/-- Value of a `Dwarf_Word` (64 bit unsigned). -/
def to_word (v : Nat) : Nat := v % 18446744073709551616

/-! ## The type walker: `find_mark_offset` -/

/-- Lines 58-68 of `dwarf.c`: the value left in `uval`, or `none` when
`dwarf_formudata` fails. -/
def member_uval : MemberLocation → Option Nat
  | MemberLocation.absent => some 0
  | MemberLocation.undecodable => none
  | MemberLocation.udata v => some (to_word v)

/-- Body of the `do .. while (dwarf_siblingof ..)` loop of `find_mark_offset`,
over the remaining siblings.  `recurse` is the recursive call with the level
already incremented. -/
def find_mark_offset_loop (g : Dwarf) (recurse : Dwarf_Die → Int → Option Int)
    (offset : Int) : List DieAttrs → Option Int
  | [] => some 0
  | child :: rest =>
    if child.tag ≠ DW_TAG_member then
      find_mark_offset_loop g recurse offset rest
    else
      match member_uval child.data_member_location with
      | none => some (-1)
      | some uval =>
        match dwarf_formref_die g child with
        | none => some (-1)
        | some type =>
          if type.attrs.tag = DW_TAG_structure_type ∨ type.attrs.tag = DW_TAG_union_type then
            match recurse type (to_ptrdiff (offset + uval)) with
            | none => none
            | some ret =>
              if ret > 0 ∨ ret = -1 then some ret
              else find_mark_offset_loop g recurse offset rest
          else
            match child.name with
            | none => none
            | some n =>
              if n = "mark" then some (to_ptrdiff (offset + uval))
              else find_mark_offset_loop g recurse offset rest

/-- The walker `find_mark_offset (die, level, offset)` with an explicit bound
on the number of nested activations; `none` when the bound is used up. -/
def find_mark_offset_fuel (g : Dwarf) : Nat → Dwarf_Die → Nat → Int → Option Int
  | 0, _, _, _ => none
  | fuel + 1, die, level, offset =>
    if level = MAX_RECURSE_LEVEL then some (-1)
    else
      match die.children with
      | [] => some (-1)
      | child :: rest =>
        find_mark_offset_loop g
          (fun type off => find_mark_offset_fuel g fuel type (level + 1) off)
          offset (child :: rest)

/-- The walker: `find_mark_offset (die, level, offset)`, for a level from 0 to
`MAX_RECURSE_LEVEL`, the levels `dwarf.c` calls it with (0 from the scanner,
`level + 1` after the test `level == MAX_RECURSE_LEVEL` in the recursion).  From
such a level at most `MAX_RECURSE_LEVEL + 1 - level` activations nest.  A level
above the ceiling is outside the embedding: the result is `none` there, while
the C code, which tests only `level == MAX_RECURSE_LEVEL`, would walk on with
no bound on the depth. -/
def find_mark_offset (g : Dwarf) (die : Dwarf_Die) (level : Nat) (offset : Int) :
    Option Int :=
  find_mark_offset_fuel g (MAX_RECURSE_LEVEL + 1 - level) die level offset

/-! ## The symbol database -/

structure ipft_syminfo where
  skb_pos : Nat
deriving DecidableEq, Repr

/-- Symbol database: the mark offset (`-1` while absent) and the records in
insertion order, keyed by the `char *` name handed to `symsdb_put_sym2info`
(`none` for a NULL pointer). -/
structure ipft_symsdb where
  mark_offset : Int
  sym2info : List (Option String × ipft_syminfo)
deriving DecidableEq, Repr

/-- Modelled from the spec: the freshly created database of `symsdb.c`
(not under src): no records, mark offset absent. -/
def symsdb_empty : ipft_symsdb := { mark_offset := -1, sym2info := [] }

/-- Modelled from the spec: `symsdb_get_mark_offset` of `symsdb.c` (not under
src): returns the discovered offset or the absent sentinel. -/
def symsdb_get_mark_offset (db : ipft_symsdb) : Int := db.mark_offset

/-- Modelled from the spec: `symsdb_put_mark_offset` of `symsdb.c` (not under
src): sets the offset once; subsequent calls are no-ops. -/
def symsdb_put_mark_offset (db : ipft_symsdb) (offset : Int) : ipft_symsdb :=
  if db.mark_offset = -1 then { db with mark_offset := offset } else db

/-- Modelled from the spec: `symsdb_put_sym2info` of `symsdb.c` (not under
src): inserts if absent and returns success; on a duplicate key the first
write wins. -/
def symsdb_put_sym2info (db : ipft_symsdb) (name : Option String) (si : ipft_syminfo) :
    Int × ipft_symsdb :=
  if (db.sym2info.map Prod.fst).contains name then (0, db)
  else (0, { db with sym2info := db.sym2info ++ [(name, si)] })

/-! ## The function scanner: `dwarf_scan_func_die` -/

/-- Lines 174-197 of `dwarf.c`: what the scanner does with child number `i`
once its type chain has matched with pointee `ptr_type`: discover the mark
offset when the database has none, then record the function and leave the
loop. -/
def dwarf_scan_func_match
    (put : ipft_symsdb → Option String → ipft_syminfo → Int × ipft_symsdb)
    (walk : Dwarf_Die → Nat → Int → Option Int)
    (die : Dwarf_Die) (i : Nat) (ptr_type : Dwarf_Die) (db : ipft_symsdb) :
    Option (Int × ipft_symsdb) :=
  if symsdb_get_mark_offset db = -1 then
    match walk ptr_type 0 0 with
    | none => none
    | some offset =>
      if offset = -1 then some (-1, db)
      else
        let db1 := symsdb_put_mark_offset db offset
        let r := put db1 die.attrs.name { skb_pos := i }
        if r.1 = -1 then some (-1, r.2) else some (DWARF_CB_OK, r.2)
  else
    let r := put db die.attrs.name { skb_pos := i }
    if r.1 = -1 then some (-1, r.2) else some (DWARF_CB_OK, r.2)

/-- Body of the `do .. while (dwarf_siblingof ..)` loop of
`dwarf_scan_func_die` over the remaining children; `i` is the value of the
counter before the `i++` of this iteration.  `put` is the implementation of
`symsdb_put_sym2info` the scanner is linked with. -/
def dwarf_scan_func_loop
    (put : ipft_symsdb → Option String → ipft_syminfo → Int × ipft_symsdb)
    (walk : Dwarf_Die → Nat → Int → Option Int)
    (g : Dwarf) (die : Dwarf_Die) :
    Nat → List DieAttrs → ipft_symsdb → Option (Int × ipft_symsdb)
  | _, [], db => some (DWARF_CB_OK, db)
  | i0, child :: rest, db =>
    let i := i0 + 1
    if child.tag = DW_TAG_formal_parameter then
      if child.name ≠ none ∧ i ≤ 4 then
        match dwarf_formref_die g child with
        | none => dwarf_scan_func_loop put walk g die i rest db
        | some param_type =>
          if param_type.attrs.tag ≠ DW_TAG_pointer_type then
            dwarf_scan_func_loop put walk g die i rest db
          else
            match dwarf_formref_die g param_type.attrs with
            | none => dwarf_scan_func_loop put walk g die i rest db
            | some ptr_type =>
              if ptr_type.attrs.tag ≠ DW_TAG_structure_type then
                dwarf_scan_func_loop put walk g die i rest db
              else
                match ptr_type.attrs.name with
                | none => none
                | some n =>
                  if n ≠ "sk_buff" then
                    dwarf_scan_func_loop put walk g die i rest db
                  else dwarf_scan_func_match put walk die i ptr_type db
      else dwarf_scan_func_loop put walk g die i rest db
    else dwarf_scan_func_loop put walk g die i rest db

/-- The scanner `dwarf_scan_func_die (die, arg)` with `arg` the database, linked
with `put` for `symsdb_put_sym2info` and `walk` for `find_mark_offset`: the
return value and the database afterwards. -/
def dwarf_scan_func_die_linked
    (put : ipft_symsdb → Option String → ipft_syminfo → Int × ipft_symsdb)
    (walk : Dwarf_Die → Nat → Int → Option Int)
    (g : Dwarf) (die : Dwarf_Die) (db : ipft_symsdb) : Option (Int × ipft_symsdb) :=
  match die.children with
  | [] => some (DWARF_CB_OK, db)
  | child :: rest => dwarf_scan_func_loop put walk g die 0 (child :: rest) db

/-- The scanner of `dwarf.c`: `dwarf_scan_func_die` calling `find_mark_offset`. -/
def dwarf_scan_func_die
    (put : ipft_symsdb → Option String → ipft_syminfo → Int × ipft_symsdb)
    (g : Dwarf) (die : Dwarf_Die) (db : ipft_symsdb) : Option (Int × ipft_symsdb) :=
  dwarf_scan_func_die_linked put (find_mark_offset g) g die db

/-! ## Vocabulary of the statements -/

/-- The structure a child DIE points to when its type chain is
pointer-type -> structure-type named "sk_buff"; `none` for any other chain. -/
def sk_buff_pointee (g : Dwarf) (a : DieAttrs) : Option Dwarf_Die :=
  match dwarf_formref_die g a with
  | none => none
  | some param_type =>
    if param_type.attrs.tag = DW_TAG_pointer_type then
      match dwarf_formref_die g param_type.attrs with
      | none => none
      | some ptr_type =>
        if ptr_type.attrs.tag = DW_TAG_structure_type ∧ ptr_type.attrs.name = some "sk_buff"
        then some ptr_type else none
    else none

/-- The type chain of a child DIE fails to be pointer-type -> structure-type
named "sk_buff" in one of four ways: the type reference is missing, the type is
not a pointer, the pointee reference is missing or the pointee is not a
structure, or the pointee is a structure carrying another name. -/
def chain_mismatch (g : Dwarf) (a : DieAttrs) : Bool :=
  match dwarf_formref_die g a with
  | none => true
  | some param_type =>
    if param_type.attrs.tag ≠ DW_TAG_pointer_type then true
    else
      match dwarf_formref_die g param_type.attrs with
      | none => true
      | some ptr_type =>
        if ptr_type.attrs.tag ≠ DW_TAG_structure_type then true
        else
          match ptr_type.attrs.name with
          | none => false
          | some n => n ≠ "sk_buff"

/-- Keys of the records of a database. -/
def symsdb_keys (db : ipft_symsdb) : List (Option String) := db.sym2info.map Prod.fst

/-- A run of the scanner over a sequence of subprogram DIEs, each call
starting from the database the previous one left, whatever it returned. -/
def scan_sequence
    (put : ipft_symsdb → Option String → ipft_syminfo → Int × ipft_symsdb)
    (g : Dwarf) : List Dwarf_Die → ipft_symsdb → Option ipft_symsdb
  | [], db => some db
  | die :: dies, db =>
    match dwarf_scan_func_die put g die db with
    | none => none
    | some r => scan_sequence put g dies r.2

/-- A child DIE over which the walker steps without returning, when `d` more
levels of nesting are allowed below the aggregate that holds it: it is not a
member, or it is a member with a decodable location whose type resolves and
either is no aggregate, the member carrying a name other than "mark", or is an
aggregate with at least one child, within the depth ceiling, all of whose
children are stepped over in turn. -/
def passable (g : Dwarf) : Nat → DieAttrs → Bool
  | 0, c =>
    if c.tag ≠ DW_TAG_member then true
    else
      match member_uval c.data_member_location, dwarf_formref_die g c with
      | some _, some t =>
        if t.attrs.tag = DW_TAG_structure_type ∨ t.attrs.tag = DW_TAG_union_type then false
        else
          match c.name with
          | some n => n ≠ "mark"
          | none => false
      | _, _ => false
  | d + 1, c =>
    if c.tag ≠ DW_TAG_member then true
    else
      match member_uval c.data_member_location, dwarf_formref_die g c with
      | some _, some t =>
        if t.attrs.tag = DW_TAG_structure_type ∨ t.attrs.tag = DW_TAG_union_type then
          !t.children.isEmpty && t.children.all (passable g d)
        else
          match c.name with
          | some n => n ≠ "mark"
          | none => false
      | _, _ => false

/-- No member named "mark" at or below a child DIE, looking `d` more levels of
nesting down; members of a type that is no aggregate carry a name. -/
def no_mark (g : Dwarf) : Nat → DieAttrs → Bool
  | 0, c =>
    if c.tag ≠ DW_TAG_member then true
    else
      match member_uval c.data_member_location, dwarf_formref_die g c with
      | some _, some t =>
        if t.attrs.tag = DW_TAG_structure_type ∨ t.attrs.tag = DW_TAG_union_type then true
        else
          match c.name with
          | some n => n ≠ "mark"
          | none => false
      | _, _ => true
  | d + 1, c =>
    if c.tag ≠ DW_TAG_member then true
    else
      match member_uval c.data_member_location, dwarf_formref_die g c with
      | some _, some t =>
        if t.attrs.tag = DW_TAG_structure_type ∨ t.attrs.tag = DW_TAG_union_type then
          t.children.all (no_mark g d)
        else
          match c.name with
          | some n => n ≠ "mark"
          | none => false
      | _, _ => true

/-- The member named "mark" sits below `die` at the end of a chain of nested
aggregate-typed members whose locations are `os` (outermost first), with its
own location `m`; `acc` is the cumulative offset of `die` itself and `d` the
number of levels of nesting still allowed below `die`.  At each level the
members before the link are passable; the members after a link are
unconstrained when the cumulative offset of the mark is positive and passable
when it is zero. -/
def mark_chain (g : Dwarf) : List Nat → Nat → Nat → Nat → Dwarf_Die → Prop
  | [], m, d, _, die =>
    ∃ pre c post t, die.children = pre ++ c :: post ∧
      (∀ x ∈ pre, passable g d x = true) ∧
      c.tag = DW_TAG_member ∧ member_uval c.data_member_location = some m ∧
      dwarf_formref_die g c = some t ∧
      ¬ (t.attrs.tag = DW_TAG_structure_type ∨ t.attrs.tag = DW_TAG_union_type) ∧
      c.name = some "mark"
  | o :: os, m, d, acc, die =>
    ∃ pre c post t, die.children = pre ++ c :: post ∧
      (∀ x ∈ pre, passable g d x = true) ∧
      c.tag = DW_TAG_member ∧ member_uval c.data_member_location = some o ∧
      dwarf_formref_die g c = some t ∧
      (t.attrs.tag = DW_TAG_structure_type ∨ t.attrs.tag = DW_TAG_union_type) ∧
      mark_chain g os m (d - 1) (acc + o) t ∧
      (0 < acc + o + os.sum + m ∨ ∀ x ∈ post, passable g d x = true)

/-- Every record of the database has skb_pos between 1 and 4. -/
def skb_pos_in_range (db : ipft_symsdb) : Prop :=
  ∀ e ∈ db.sym2info, 1 ≤ e.2.skb_pos ∧ e.2.skb_pos ≤ 4

/-- Every member location of the store is representable as a non-negative
`ptrdiff_t`, as the offset of a member inside an object is. -/
def member_locations_fit (g : Dwarf) : Prop :=
  ∀ r die, g r = some die → ∀ c ∈ die.children, ∀ v,
    member_uval c.data_member_location = some v → v < 9223372036854775808

/-- The database invariant of the resolver: a database with a record has a
mark offset, and a mark offset that is present is not negative. -/
def mark_offset_known (db : ipft_symsdb) : Prop :=
  (db.sym2info ≠ [] → db.mark_offset ≠ -1) ∧ (db.mark_offset = -1 ∨ 0 ≤ db.mark_offset)

/-! ## Scenarios -/

def member_die (name : Option String) (loc : MemberLocation) (type : Nat) : DieAttrs :=
  { tag := DW_TAG_member, name := name, data_member_location := loc, type := some type }

def param_die (name : Option String) (type : Nat) : DieAttrs :=
  { tag := DW_TAG_formal_parameter, name := name,
    data_member_location := MemberLocation.absent, type := some type }

def type_die (tag : Nat) (name : Option String) (type : Option Nat)
    (children : List DieAttrs) : Dwarf_Die :=
  { attrs := { tag := tag, name := name, data_member_location := MemberLocation.absent,
               type := type },
    children := children }

def subprogram_die (name : Option String) (children : List DieAttrs) : Dwarf_Die :=
  type_die DW_TAG_subprogram name none children

/-- A store of types.  `1`: `struct sk_buff { .. int mark; }` with `mark` at
offset 8; `3`: `struct sk_buff` holding an anonymous union at 16 that holds an
anonymous structure at 0 that holds `mark` at 4; `7`: `struct other` with a
`mark` member; `9`: `struct sk_buff` without a `mark` member; `11`:
`struct sk_buff` with `mark` at offset 0.  Even references are the base type
`int` (`0`) and the pointers to the structures. -/
def example_types : Dwarf
  | 0 => some (type_die DW_TAG_base_type (some "int") none [])
  | 1 => some (type_die DW_TAG_structure_type (some "sk_buff") none
      [member_die (some "len") (MemberLocation.udata 0) 0,
       member_die (some "mark") (MemberLocation.udata 8) 0])
  | 2 => some (type_die DW_TAG_pointer_type none (some 1) [])
  | 3 => some (type_die DW_TAG_structure_type (some "sk_buff") none
      [member_die none (MemberLocation.udata 16) 5])
  | 4 => some (type_die DW_TAG_pointer_type none (some 3) [])
  | 5 => some (type_die DW_TAG_union_type none none
      [member_die none MemberLocation.absent 6])
  | 6 => some (type_die DW_TAG_structure_type none none
      [member_die (some "mark") (MemberLocation.udata 4) 0])
  | 7 => some (type_die DW_TAG_structure_type (some "other") none
      [member_die (some "mark") (MemberLocation.udata 8) 0])
  | 8 => some (type_die DW_TAG_pointer_type none (some 7) [])
  | 9 => some (type_die DW_TAG_structure_type (some "sk_buff") none
      [member_die (some "len") (MemberLocation.udata 0) 0])
  | 10 => some (type_die DW_TAG_pointer_type none (some 9) [])
  | 11 => some (type_die DW_TAG_structure_type (some "sk_buff") none
      [member_die (some "mark") (MemberLocation.udata 0) 0])
  | 12 => some (type_die DW_TAG_pointer_type none (some 11) [])
  | _ => none

/-- The structure behind reference `r` of `example_types`, an empty structure
when there is none. -/
def example_struct (r : Nat) : Dwarf_Die :=
  (example_types r).getD (type_die DW_TAG_structure_type none none [])

/-- Subprogram `foo (struct sk_buff *skb)`. -/
def example_foo : Dwarf_Die := subprogram_die (some "foo") [param_die (some "skb") 2]

/-- Declaration `foo (struct sk_buff *)`: the parameter carries no name. -/
def example_foo_unnamed : Dwarf_Die := subprogram_die (some "foo") [param_die none 2]

/-- Subprogram `bar (int a, int b, struct sk_buff *skb)`. -/
def example_bar : Dwarf_Die :=
  subprogram_die (some "bar")
    [param_die (some "a") 0, param_die (some "b") 0, param_die (some "skb") 2]

/-- Subprogram `quux (int a, int b, int c, struct sk_buff *skb)`. -/
def example_quux : Dwarf_Die :=
  subprogram_die (some "quux")
    [param_die (some "a") 0, param_die (some "b") 0, param_die (some "c") 0,
     param_die (some "skb") 2]

/-- Declaration `quux (int a, int b, int c, struct sk_buff *)`. -/
def example_quux_unnamed : Dwarf_Die :=
  subprogram_die (some "quux")
    [param_die (some "a") 0, param_die (some "b") 0, param_die (some "c") 0,
     param_die none 2]

/-- Subprogram `baz (int a, int b, int c, int d, struct sk_buff *skb)`. -/
def example_baz : Dwarf_Die :=
  subprogram_die (some "baz")
    [param_die (some "a") 0, param_die (some "b") 0, param_die (some "c") 0,
     param_die (some "d") 0, param_die (some "skb") 2]

/-- Subprogram `qux (struct other *o)`. -/
def example_qux : Dwarf_Die := subprogram_die (some "qux") [param_die (some "o") 8]

/-- Subprogram `foo (struct sk_buff *skb)` where `struct sk_buff` has no member
named "mark". -/
def example_foo_nomark : Dwarf_Die := subprogram_die (some "foo") [param_die (some "skb") 10]

/-- Subprogram `rx (struct sk_buff *skb)` of a unit whose `struct sk_buff`
keeps `mark` inside nested anonymous aggregates, at cumulative offset 20. -/
def example_rx : Dwarf_Die := subprogram_die (some "rx") [param_die (some "skb") 4]

/-- Database after `foo` was recorded with mark offset 8. -/
def example_db : ipft_symsdb :=
  { mark_offset := 8, sym2info := [(some "foo", { skb_pos := 1 })] }

/-- Database after `foo` and then `rx` were recorded. -/
def example_db_rx : ipft_symsdb :=
  { mark_offset := 8,
    sym2info := [(some "foo", { skb_pos := 1 }), (some "rx", { skb_pos := 1 })] }

/-- Database after `foo`, `bar`, `baz` and `quux` were scanned from the empty
database. -/
def example_db_run : ipft_symsdb :=
  { mark_offset := 8,
    sym2info := [(some "foo", { skb_pos := 1 }), (some "bar", { skb_pos := 3 }),
      (some "quux", { skb_pos := 4 })] }

/-! ## The driver: `ipft_dwarf_fill_sym2info` -/

/-- What the libdwfl calls of one run of the driver answer: whether
`dwfl_begin` gives a handle, the return values of
`dwfl_linux_kernel_report_kernel` and `dwfl_linux_kernel_report_modules`, and
the compilation units `dwfl_nextcu` yields, in order. -/
structure Dwfl_run where
  begin_ok : Bool
  report_kernel : Int
  report_modules : Int
  cus : List Nat
deriving DecidableEq, Repr

/-- State the driver works on: whether the debug-info source opened by
`dwfl_begin` is still open (`dwfl_end` closes it), and the database. -/
structure Driver_state where
  dwfl_open : Bool
  sdb : ipft_symsdb
deriving DecidableEq, Repr

/-- Lines 240-254 of `dwarf.c`: the `while` loop over the compilation units,
then `dwfl_end` and `return 0`, or `goto err` and `return -1`.  `getfuncs cu
sdb` is `dwarf_getfuncs (cu, dwarf_scan_func_die, sdb, 0)` of libdw: its return
value and the database the callbacks left. -/
def ipft_dwarf_fill_loop (getfuncs : Nat → ipft_symsdb → Int × ipft_symsdb) :
    List Nat → Driver_state → Int × Driver_state
  | [], s => (0, { dwfl_open := false, sdb := s.sdb })
  | cu :: rest, s =>
    let r := getfuncs cu s.sdb
    if r.1 = -1 then (-1, { dwfl_open := s.dwfl_open, sdb := r.2 })
    else ipft_dwarf_fill_loop getfuncs rest { dwfl_open := s.dwfl_open, sdb := r.2 }

/-- The driver `ipft_dwarf_fill_sym2info (sdb)`: its return value and the state
it returns in. -/
def ipft_dwarf_fill_sym2info (getfuncs : Nat → ipft_symsdb → Int × ipft_symsdb)
    (run : Dwfl_run) (sdb : ipft_symsdb) : Int × Driver_state :=
  if run.begin_ok = false then (-1, { dwfl_open := false, sdb := sdb })
  else if run.report_kernel ≠ 0 then (-1, { dwfl_open := true, sdb := sdb })
  else if run.report_modules ≠ 0 then (-1, { dwfl_open := true, sdb := sdb })
  else ipft_dwarf_fill_loop getfuncs run.cus { dwfl_open := true, sdb := sdb }

/-! ## Option validation: `ipftrace.c` -/

/-- The fields of `struct ipft_tracer_opt` that `ipftrace.c` sets (the
declaration is in `ipftrace.h`, not under src): `mark` comes from `strtoul`,
`perf_page_cnt` from `atoi`, `debug_info_type` is a non-null C string. -/
structure ipft_tracer_opt where
  mark : Nat
  script_path : Option String
  debug_info_type : String
  perf_page_cnt : Int
  regex : Option String
  set_rlimit : Bool
deriving DecidableEq, Repr

/-- What `opt_init` leaves in the option record. -/
def opt_init : ipft_tracer_opt :=
  { mark := 0, script_path := none, debug_info_type := "dwarf", perf_page_cnt := 8,
    regex := none, set_rlimit := true }

/-- The function `opt_validate (opt, list)`. -/
def opt_validate (opt : ipft_tracer_opt) (list : Bool) : Bool :=
  if list = false ∧ opt.mark = 0 then false
  else if opt.debug_info_type ≠ "dwarf" ∧ opt.debug_info_type ≠ "btf" then false
  else if list = false ∧ opt.perf_page_cnt = 0 then false
  else true

/-! ## Vocabulary of the statements, continued -/

/-- Every child of `die` with tag `DW_TAG_member` whose type resolves to
something that is no aggregate carries a name, so that `strcmp` gets a
string. -/
def plain_members_named (g : Dwarf) (die : Dwarf_Die) : Prop :=
  ∀ c ∈ die.children, c.tag = DW_TAG_member → ∀ t, dwarf_formref_die g c = some t →
    ¬ (t.attrs.tag = DW_TAG_structure_type ∨ t.attrs.tag = DW_TAG_union_type) →
    c.name ≠ none

/-- The first child, among the first four counted from `i0 + 1`, that is a
formal parameter carrying a name whose type chain is pointer-type ->
structure-type named "sk_buff": its number and the structure. -/
def scan_first_match (g : Dwarf) : Nat → List DieAttrs → Option (Nat × Dwarf_Die)
  | _, [] => none
  | i0, c :: rest =>
    if c.tag = DW_TAG_formal_parameter ∧ c.name ≠ none ∧ i0 + 1 ≤ 4 then
      match sk_buff_pointee g c with
      | some st => some (i0 + 1, st)
      | none => scan_first_match g (i0 + 1) rest
    else scan_first_match g (i0 + 1) rest

/-- The database `symsdb_put_sym2info` is called with once a child matched
with pointee `st`, or `none` when lines 178-185 do not get that far. -/
def scan_put_input (g : Dwarf) (db : ipft_symsdb) (st : Dwarf_Die) : Option ipft_symsdb :=
  if symsdb_get_mark_offset db = -1 then
    match find_mark_offset g st 0 0 with
    | none => none
    | some offset => if offset = -1 then none else some (symsdb_put_mark_offset db offset)
  else some db

def var_die (name : Option String) (type : Nat) : DieAttrs :=
  { tag := DW_TAG_variable, name := name,
    data_member_location := MemberLocation.absent, type := some type }

def label_die (name : Option String) : DieAttrs :=
  { tag := DW_TAG_label, name := name,
    data_member_location := MemberLocation.absent, type := none }

/-- Subprogram without a name attribute, `(struct sk_buff *skb)`. -/
def example_nameless : Dwarf_Die := subprogram_die none [param_die (some "skb") 2]

/-- Subprogram whose name is the empty string, `(struct sk_buff *skb)`. -/
def example_empty_name : Dwarf_Die := subprogram_die (some "") [param_die (some "skb") 2]

/-- Subprogram `f (struct sk_buff *skb)` whose first child is a variable. -/
def example_inflated : Dwarf_Die :=
  subprogram_die (some "f") [var_die (some "tmp") 0, param_die (some "skb") 2]

/-- Subprogram `h (struct sk_buff *skb)` whose first four children are three
variables and a label. -/
def example_inflated_out : Dwarf_Die :=
  subprogram_die (some "h")
    [var_die (some "a") 0, var_die (some "b") 0, var_die (some "c") 0,
     label_die (some "out"), param_die (some "skb") 2]

/-- A second store of types.  `1`: `struct sk_buff { struct empty e; int mark; }`
with `mark` at 8 and `struct empty` (`2`) without members; `3`: `struct sk_buff {
struct pair p; int mark; }` with `struct pair { int a; int b; }` (`4`); `5`:
`struct sk_buff { union { int mark; }; int mark; }` with the union (`6`) at 0
and the outer `mark` at 8; `7`: `struct sk_buff { struct inner in; int mark; }`
with `struct inner { int mark; }` (`8`) at 0 and the outer `mark` at 4; `9`:
`struct sk_buff { struct pair mark; }` at 8; `10`: like `7` with `in` at 8;
`11`: `struct sk_buff` without members, `12` the pointer to it; `13`: like `5`
with the union at 4 and the outer `mark` at 16; `14` to `18`: `struct sk_buff {
struct l1 a; int mark; }` where `l1` holds `l2` holds `l3` holds `l4`. -/
def example_nests : Dwarf
  | 0 => some (type_die DW_TAG_base_type (some "int") none [])
  | 1 => some (type_die DW_TAG_structure_type (some "sk_buff") none
      [member_die (some "e") (MemberLocation.udata 0) 2,
       member_die (some "mark") (MemberLocation.udata 8) 0])
  | 2 => some (type_die DW_TAG_structure_type (some "empty") none [])
  | 3 => some (type_die DW_TAG_structure_type (some "sk_buff") none
      [member_die (some "p") (MemberLocation.udata 0) 4,
       member_die (some "mark") (MemberLocation.udata 8) 0])
  | 4 => some (type_die DW_TAG_structure_type (some "pair") none
      [member_die (some "a") (MemberLocation.udata 0) 0,
       member_die (some "b") (MemberLocation.udata 4) 0])
  | 5 => some (type_die DW_TAG_structure_type (some "sk_buff") none
      [member_die none (MemberLocation.udata 0) 6,
       member_die (some "mark") (MemberLocation.udata 8) 0])
  | 6 => some (type_die DW_TAG_union_type none none
      [member_die (some "mark") MemberLocation.absent 0])
  | 7 => some (type_die DW_TAG_structure_type (some "sk_buff") none
      [member_die (some "in") (MemberLocation.udata 0) 8,
       member_die (some "mark") (MemberLocation.udata 4) 0])
  | 8 => some (type_die DW_TAG_structure_type (some "inner") none
      [member_die (some "mark") (MemberLocation.udata 0) 0])
  | 9 => some (type_die DW_TAG_structure_type (some "sk_buff") none
      [member_die (some "mark") (MemberLocation.udata 8) 4])
  | 10 => some (type_die DW_TAG_structure_type (some "sk_buff") none
      [member_die (some "in") (MemberLocation.udata 8) 8,
       member_die (some "mark") (MemberLocation.udata 4) 0])
  | 11 => some (type_die DW_TAG_structure_type (some "sk_buff") none [])
  | 12 => some (type_die DW_TAG_pointer_type none (some 11) [])
  | 13 => some (type_die DW_TAG_structure_type (some "sk_buff") none
      [member_die none (MemberLocation.udata 4) 6,
       member_die (some "mark") (MemberLocation.udata 16) 0])
  | 14 => some (type_die DW_TAG_structure_type (some "sk_buff") none
      [member_die (some "a") (MemberLocation.udata 0) 15,
       member_die (some "mark") (MemberLocation.udata 8) 0])
  | 15 => some (type_die DW_TAG_structure_type (some "l1") none
      [member_die (some "b") (MemberLocation.udata 0) 16])
  | 16 => some (type_die DW_TAG_structure_type (some "l2") none
      [member_die (some "c") (MemberLocation.udata 0) 17])
  | 17 => some (type_die DW_TAG_structure_type (some "l3") none
      [member_die (some "d") (MemberLocation.udata 0) 18])
  | 18 => some (type_die DW_TAG_structure_type (some "l4") none
      [member_die (some "x") (MemberLocation.udata 0) 0])
  | _ => none

/-- Subprogram `foo (struct sk_buff *skb)` of a unit whose `struct sk_buff` has
no members. -/
def example_foo_empty : Dwarf_Die := subprogram_die (some "foo") [param_die (some "skb") 12]

/-- A store whose only type is `struct node`, holding a member `next` at 8
whose type is `struct node` itself: a cycle of type references. -/
def example_cycle : Dwarf
  | 0 => some (type_die DW_TAG_structure_type (some "node") none
      [member_die (some "next") (MemberLocation.udata 8) 0])
  | _ => none

/-- The `struct node` of `example_cycle`. -/
def example_node : Dwarf_Die :=
  type_die DW_TAG_structure_type (some "node") none
    [member_die (some "next") (MemberLocation.udata 8) 0]

/-- A third store of types.  `1`: `struct sk_buff { int mark; }` whose
`DW_AT_data_member_location` is 2^64 - 2, `2` the pointer to it; `3`: `struct
sk_buff { union { int mark; }; struct empty e; }` with the union (`4`) at 0 and
`e`, of the childless `struct empty` (`5`), at 8; `6`: `struct sk_buff { struct
empty e; int mark; }` with `e` at 0 and `mark` at 8. -/
def example_edges : Dwarf
  | 0 => some (type_die DW_TAG_base_type (some "int") none [])
  | 1 => some (type_die DW_TAG_structure_type (some "sk_buff") none
      [member_die (some "mark") (MemberLocation.udata 18446744073709551614) 0])
  | 2 => some (type_die DW_TAG_pointer_type none (some 1) [])
  | 3 => some (type_die DW_TAG_structure_type (some "sk_buff") none
      [member_die none (MemberLocation.udata 0) 4,
       member_die (some "e") (MemberLocation.udata 8) 5])
  | 4 => some (type_die DW_TAG_union_type none none
      [member_die (some "mark") (MemberLocation.udata 0) 0])
  | 5 => some (type_die DW_TAG_structure_type (some "empty") none [])
  | 6 => some (type_die DW_TAG_structure_type (some "sk_buff") none
      [member_die (some "e") (MemberLocation.udata 0) 5,
       member_die (some "mark") (MemberLocation.udata 8) 0])
  | _ => none

/-- The structure behind reference `r` of `example_edges`. -/
def example_edge (r : Nat) : Dwarf_Die :=
  (example_edges r).getD (type_die DW_TAG_structure_type none none [])

/-- Subprogram `foo (struct sk_buff *skb)` of a unit whose `struct sk_buff`
gives `mark` the member location 2^64 - 2. -/
def example_foo_wide : Dwarf_Die := subprogram_die (some "foo") [param_die (some "skb") 2]

/-- Database after `example_foo_wide` was scanned from the empty database. -/
def example_db_wide : ipft_symsdb :=
  { mark_offset := -2, sym2info := [(some "foo", { skb_pos := 1 })] }

/-! ## Lemmas on the scanner loop -/

theorem scan_loop_skip
    (put : ipft_symsdb → Option String → ipft_syminfo → Int × ipft_symsdb)
    (walk : Dwarf_Die → Nat → Int → Option Int)
    (g : Dwarf) (die : Dwarf_Die) (i0 : Nat) (child : DieAttrs) (rest : List DieAttrs)
    (db : ipft_symsdb)
    (h : child.tag ≠ DW_TAG_formal_parameter ∨ child.name = none ∨ 4 < i0 + 1 ∨
      chain_mismatch g child = true) :
    dwarf_scan_func_loop put walk g die i0 (child :: rest) db =
      dwarf_scan_func_loop put walk g die (i0 + 1) rest db := by
  rw [dwarf_scan_func_loop]
  by_cases ht : child.tag = DW_TAG_formal_parameter
  · by_cases hg : child.name ≠ none ∧ i0 + 1 ≤ 4
    · have hm : chain_mismatch g child = true := by
        rcases h with h | h | h | h
        · exact absurd ht h
        · exact absurd h hg.1
        · omega
        · exact h
      simp only [ht, hg, if_true, and_self, ne_eq, not_false_eq_true]
      unfold chain_mismatch at hm
      cases h1 : dwarf_formref_die g child with
      | none => simp
      | some pt =>
        simp only [h1] at hm ⊢
        by_cases h2 : pt.attrs.tag = DW_TAG_pointer_type
        · simp only [h2, ne_eq, not_true_eq_false, if_false] at hm ⊢
          cases h3 : dwarf_formref_die g pt.attrs with
          | none => simp
          | some st =>
            simp only [h3] at hm ⊢
            by_cases h4 : st.attrs.tag = DW_TAG_structure_type
            · simp only [h4, ne_eq, not_true_eq_false, if_false] at hm ⊢
              cases h5 : st.attrs.name with
              | none => simp [h5] at hm
              | some n =>
                simp only [h5] at hm ⊢
                have : n ≠ "sk_buff" := by simpa using hm
                simp [this]
            · simp [h4]
        · simp [h2]
    · simp only [ht, hg, if_true, if_false]
  · simp only [ht, if_false]

theorem scan_loop_beyond
    (put : ipft_symsdb → Option String → ipft_syminfo → Int × ipft_symsdb)
    (walk : Dwarf_Die → Nat → Int → Option Int)
    (g : Dwarf) (die : Dwarf_Die) (cs : List DieAttrs) :
    ∀ (i0 : Nat) (db : ipft_symsdb), 4 ≤ i0 →
      dwarf_scan_func_loop put walk g die i0 cs db = some (DWARF_CB_OK, db) := by
  induction cs with
  | nil => intro i0 db _; rw [dwarf_scan_func_loop]
  | cons c cs ih =>
    intro i0 db h
    rw [scan_loop_skip put walk g die i0 c cs db (Or.inr (Or.inr (Or.inl (by omega))))]
    exact ih (i0 + 1) db (by omega)

theorem scan_loop_skip_all
    (put : ipft_symsdb → Option String → ipft_syminfo → Int × ipft_symsdb)
    (walk : Dwarf_Die → Nat → Int → Option Int)
    (g : Dwarf) (die : Dwarf_Die) (pre : List DieAttrs) :
    ∀ (i0 : Nat) (rest : List DieAttrs) (db : ipft_symsdb),
      (∀ c ∈ pre, c.tag ≠ DW_TAG_formal_parameter ∨ c.name = none ∨
        chain_mismatch g c = true) →
      dwarf_scan_func_loop put walk g die i0 (pre ++ rest) db =
        dwarf_scan_func_loop put walk g die (i0 + pre.length) rest db := by
  induction pre with
  | nil => intro i0 rest db _; simp
  | cons c pre ih =>
    intro i0 rest db h
    have hc := h c (List.mem_cons_self c pre)
    have hskip : c.tag ≠ DW_TAG_formal_parameter ∨ c.name = none ∨ 4 < i0 + 1 ∨
        chain_mismatch g c = true := by
      rcases hc with hc | hc | hc
      · exact Or.inl hc
      · exact Or.inr (Or.inl hc)
      · exact Or.inr (Or.inr (Or.inr hc))
    rw [List.cons_append, scan_loop_skip put walk g die i0 c (pre ++ rest) db hskip,
      ih (i0 + 1) rest db (fun x hx => h x (List.mem_cons_of_mem c hx))]
    simp only [List.length_cons]
    congr 1
    omega

theorem sk_buff_pointee_chain (g : Dwarf) (a : DieAttrs) (st : Dwarf_Die)
    (h : sk_buff_pointee g a = some st) :
    ∃ pt, dwarf_formref_die g a = some pt ∧ pt.attrs.tag = DW_TAG_pointer_type ∧
      dwarf_formref_die g pt.attrs = some st ∧
      st.attrs.tag = DW_TAG_structure_type ∧ st.attrs.name = some "sk_buff" := by
  unfold sk_buff_pointee at h
  cases h1 : dwarf_formref_die g a with
  | none => simp [h1] at h
  | some pt =>
    simp only [h1] at h
    by_cases h2 : pt.attrs.tag = DW_TAG_pointer_type
    · simp only [h2, if_true] at h
      cases h3 : dwarf_formref_die g pt.attrs with
      | none => simp [h3] at h
      | some st1 =>
        simp only [h3] at h
        by_cases h4 : st1.attrs.tag = DW_TAG_structure_type ∧ st1.attrs.name = some "sk_buff"
        · simp only [h4, and_self, if_true, Option.some.injEq] at h
          subst h
          exact ⟨pt, rfl, h2, h3, h4.1, h4.2⟩
        · simp [h4] at h
    · simp [h2] at h

theorem scan_loop_hit
    (put : ipft_symsdb → Option String → ipft_syminfo → Int × ipft_symsdb)
    (walk : Dwarf_Die → Nat → Int → Option Int)
    (g : Dwarf) (die : Dwarf_Die) (i0 : Nat) (child : DieAttrs) (rest : List DieAttrs)
    (db : ipft_symsdb) (st : Dwarf_Die)
    (ht : child.tag = DW_TAG_formal_parameter) (hn : child.name ≠ none) (hi : i0 + 1 ≤ 4)
    (hp : sk_buff_pointee g child = some st) :
    dwarf_scan_func_loop put walk g die i0 (child :: rest) db =
      dwarf_scan_func_match put walk die (i0 + 1) st db := by
  obtain ⟨pt, h1, h2, h3, h4, h5⟩ := sk_buff_pointee_chain g child st hp
  rw [dwarf_scan_func_loop]
  simp [ht, hn, hi, h1, h2, h3, h4, h5]

/-- Every run of the scanner loop ends in one of three ways, the same for every
database and every linked `put` and `walk`: it falls off the end of the
children with the database untouched, it has no defined result, or it reaches
lines 174-197 at a child number between 1 and 4 whose type chain matched. -/
theorem scan_loop_cases (g : Dwarf) (die : Dwarf_Die) (cs : List DieAttrs) :
    ∀ (i0 : Nat),
      (∀ put walk db, dwarf_scan_func_loop put walk g die i0 cs db = some (DWARF_CB_OK, db)) ∨
      (∀ put walk db, dwarf_scan_func_loop put walk g die i0 cs db = none) ∨
      ∃ i st, i0 + 1 ≤ i ∧ i ≤ 4 ∧ (∃ c ∈ cs, sk_buff_pointee g c = some st) ∧
        ∀ put walk db, dwarf_scan_func_loop put walk g die i0 cs db =
          dwarf_scan_func_match put walk die i st db := by
  induction cs with
  | nil => intro i0; left; intro put walk db; rw [dwarf_scan_func_loop]
  | cons c cs ih =>
    intro i0
    by_cases hskip : c.tag ≠ DW_TAG_formal_parameter ∨ c.name = none ∨ 4 < i0 + 1 ∨
        chain_mismatch g c = true
    · have he : ∀ put walk db, dwarf_scan_func_loop put walk g die i0 (c :: cs) db =
          dwarf_scan_func_loop put walk g die (i0 + 1) cs db :=
        fun put walk db => scan_loop_skip put walk g die i0 c cs db hskip
      rcases ih (i0 + 1) with h | h | ⟨i, st, h1, h2, ⟨x, hx, hxp⟩, h3⟩
      · exact Or.inl (fun put walk db => by rw [he, h])
      · exact Or.inr (Or.inl (fun put walk db => by rw [he, h]))
      · exact Or.inr (Or.inr ⟨i, st, by omega, h2, ⟨x, List.mem_cons_of_mem c hx, hxp⟩,
          fun put walk db => by rw [he, h3]⟩)
    · simp only [not_or, ne_eq, not_not, not_lt, Bool.not_eq_true] at hskip
      obtain ⟨ht, hn, hi, hm⟩ := hskip
      cases hp : sk_buff_pointee g c with
      | some st =>
        right; right
        exact ⟨i0 + 1, st, le_refl _, hi, ⟨c, List.mem_cons_self c cs, hp⟩,
          fun put walk db => scan_loop_hit put walk g die i0 c cs db st ht hn hi hp⟩
      | none =>
        right; left
        intro put walk db
        rw [dwarf_scan_func_loop]
        unfold chain_mismatch at hm
        unfold sk_buff_pointee at hp
        cases h1 : dwarf_formref_die g c with
        | none => simp [h1] at hm
        | some pt =>
          simp only [h1] at hm hp
          by_cases h2 : pt.attrs.tag = DW_TAG_pointer_type
          · simp only [h2, ne_eq, not_true_eq_false, if_false, if_true] at hm hp
            cases h3 : dwarf_formref_die g pt.attrs with
            | none => simp [h3] at hm
            | some st =>
              simp only [h3] at hm hp
              by_cases h4 : st.attrs.tag = DW_TAG_structure_type
              · simp only [h4, ne_eq, not_true_eq_false, if_false, true_and] at hm hp
                cases h5 : st.attrs.name with
                | none => simp [ht, hn, hi, h1, h2, h3, h4, h5]
                | some n =>
                  simp only [h5] at hm hp
                  have hn1 : n = "sk_buff" := by simpa using hm
                  simp [hn1] at hp
              · simp [h4] at hm
          · simp [h2] at hm

theorem scan_die_eq_loop
    (put : ipft_symsdb → Option String → ipft_syminfo → Int × ipft_symsdb)
    (walk : Dwarf_Die → Nat → Int → Option Int)
    (g : Dwarf) (die : Dwarf_Die) (db : ipft_symsdb) :
    dwarf_scan_func_die_linked put walk g die db =
      dwarf_scan_func_loop put walk g die 0 die.children db := by
  unfold dwarf_scan_func_die_linked
  cases h : die.children with
  | nil => simp [dwarf_scan_func_loop]
  | cons c cs => rfl

/-! ## Lemmas on the database operations -/

theorem put_sym2info_fst (db : ipft_symsdb) (name : Option String) (si : ipft_syminfo) :
    (symsdb_put_sym2info db name si).1 = 0 := by
  unfold symsdb_put_sym2info
  split <;> rfl

theorem put_sym2info_mark (db : ipft_symsdb) (name : Option String) (si : ipft_syminfo) :
    (symsdb_put_sym2info db name si).2.mark_offset = db.mark_offset := by
  unfold symsdb_put_sym2info
  split <;> rfl

theorem put_sym2info_records (db : ipft_symsdb) (name : Option String) (si : ipft_syminfo) :
    (symsdb_put_sym2info db name si).2.sym2info = db.sym2info ∨
    (symsdb_put_sym2info db name si).2.sym2info = db.sym2info ++ [(name, si)] := by
  unfold symsdb_put_sym2info
  split
  · exact Or.inl rfl
  · exact Or.inr rfl

theorem put_sym2info_fresh (db : ipft_symsdb) (name : Option String) (si : ipft_syminfo)
    (h : name ∉ symsdb_keys db) :
    symsdb_put_sym2info db name si =
      (0, { mark_offset := db.mark_offset, sym2info := db.sym2info ++ [(name, si)] }) := by
  unfold symsdb_put_sym2info
  unfold symsdb_keys at h
  have : (db.sym2info.map Prod.fst).contains name = false := by
    simpa [List.contains_iff_exists_mem_beq] using h
  rw [if_neg (by rw [this]; exact Bool.false_ne_true)]

theorem put_mark_offset_absent (db : ipft_symsdb) (offset : Int) (h : db.mark_offset = -1) :
    symsdb_put_mark_offset db offset = { mark_offset := offset, sym2info := db.sym2info } := by
  unfold symsdb_put_mark_offset
  simp [h]

/-- The three ways lines 174-197 can end when linked with the database of the
spec. -/
theorem scan_match_cases (walk : Dwarf_Die → Nat → Int → Option Int) (die : Dwarf_Die)
    (i : Nat) (st : Dwarf_Die)
    (db : ipft_symsdb) (r : Int × ipft_symsdb)
    (h : dwarf_scan_func_match symsdb_put_sym2info walk die i st db = some r) :
    (db.mark_offset = -1 ∧ walk st 0 0 = some (-1) ∧ r = (-1, db)) ∨
    (db.mark_offset = -1 ∧ ∃ off, off ≠ -1 ∧ walk st 0 0 = some off ∧
      r = (DWARF_CB_OK, (symsdb_put_sym2info
        { mark_offset := off, sym2info := db.sym2info } die.attrs.name { skb_pos := i }).2)) ∨
    (db.mark_offset ≠ -1 ∧
      r = (DWARF_CB_OK, (symsdb_put_sym2info db die.attrs.name { skb_pos := i }).2)) := by
  unfold dwarf_scan_func_match symsdb_get_mark_offset at h
  by_cases hm : db.mark_offset = -1
  · simp only [hm, if_true] at h
    cases hw : walk st 0 0 with
    | none => simp [hw] at h
    | some off =>
      simp only [hw] at h
      by_cases ho : off = -1
      · left
        simp only [ho, if_true, Option.some.injEq] at h
        exact ⟨hm, by rw [ho], h.symm⟩
      · right; left
        simp only [ho, if_false, put_sym2info_fst] at h
        rw [put_mark_offset_absent db off hm] at h
        simp only [show ((0 : Int) = -1) = False from by simp, if_false,
          Option.some.injEq] at h
        exact ⟨hm, off, ho, rfl, h.symm⟩
  · right; right
    simp only [hm, if_false, put_sym2info_fst] at h
    simp only [show ((0 : Int) = -1) = False from by simp, if_false, Option.some.injEq] at h
    exact ⟨hm, h.symm⟩

/-! ## Lemmas on the walker -/

theorem walker_loop_nonmember (g : Dwarf) (recurse : Dwarf_Die → Int → Option Int)
    (offset : Int) (c : DieAttrs) (rest : List DieAttrs) (h : c.tag ≠ DW_TAG_member) :
    find_mark_offset_loop g recurse offset (c :: rest) =
      find_mark_offset_loop g recurse offset rest := by
  rw [find_mark_offset_loop]
  simp [h]

theorem walker_loop_plain (g : Dwarf) (recurse : Dwarf_Die → Int → Option Int)
    (offset : Int) (c : DieAttrs) (rest : List DieAttrs) (uval : Nat) (t : Dwarf_Die)
    (n : String) (htag : c.tag = DW_TAG_member)
    (hloc : member_uval c.data_member_location = some uval)
    (hty : dwarf_formref_die g c = some t)
    (hagg : ¬ (t.attrs.tag = DW_TAG_structure_type ∨ t.attrs.tag = DW_TAG_union_type))
    (hname : c.name = some n) :
    find_mark_offset_loop g recurse offset (c :: rest) =
      if n = "mark" then some (to_ptrdiff (offset + uval))
      else find_mark_offset_loop g recurse offset rest := by
  rw [find_mark_offset_loop]
  simp only [htag, ne_eq, not_true_eq_false, if_false, hloc, hty, hagg, hname]

theorem walker_loop_nested (g : Dwarf) (recurse : Dwarf_Die → Int → Option Int)
    (offset : Int) (c : DieAttrs) (rest : List DieAttrs) (uval : Nat) (t : Dwarf_Die)
    (ret : Int) (htag : c.tag = DW_TAG_member)
    (hloc : member_uval c.data_member_location = some uval)
    (hty : dwarf_formref_die g c = some t)
    (hagg : t.attrs.tag = DW_TAG_structure_type ∨ t.attrs.tag = DW_TAG_union_type)
    (hrec : recurse t (to_ptrdiff (offset + uval)) = some ret) :
    find_mark_offset_loop g recurse offset (c :: rest) =
      if ret > 0 ∨ ret = -1 then some ret
      else find_mark_offset_loop g recurse offset rest := by
  rw [find_mark_offset_loop]
  simp only [htag, ne_eq, not_true_eq_false, if_false, hloc, hty, hagg, if_true, hrec]

theorem walker_fuel_enter (g : Dwarf) (fuel : Nat) (die : Dwarf_Die) (level : Nat)
    (offset : Int) (hl : level ≠ MAX_RECURSE_LEVEL) (hc : die.children ≠ []) :
    find_mark_offset_fuel g (fuel + 1) die level offset =
      find_mark_offset_loop g
        (fun type off => find_mark_offset_fuel g fuel type (level + 1) off)
        offset die.children := by
  rw [find_mark_offset_fuel]
  simp only [hl, if_false]
  cases h : die.children with
  | nil => exact absurd h hc
  | cons c cs => rfl

theorem passable_cases (g : Dwarf) (d : Nat) (c : DieAttrs) (h : passable g d c = true) :
    c.tag ≠ DW_TAG_member ∨
    ∃ uval t, member_uval c.data_member_location = some uval ∧
      dwarf_formref_die g c = some t ∧
      ((¬ (t.attrs.tag = DW_TAG_structure_type ∨ t.attrs.tag = DW_TAG_union_type) ∧
          ∃ n, c.name = some n ∧ n ≠ "mark") ∨
        ((t.attrs.tag = DW_TAG_structure_type ∨ t.attrs.tag = DW_TAG_union_type) ∧
          ∃ d1, d = d1 + 1 ∧ t.children ≠ [] ∧ ∀ x ∈ t.children, passable g d1 x = true)) := by
  by_cases htag : c.tag ≠ DW_TAG_member
  · exact Or.inl htag
  · right
    cases hloc : member_uval c.data_member_location with
    | none => cases d <;> simp [passable, htag, hloc] at h
    | some uval =>
      cases hty : dwarf_formref_die g c with
      | none => cases d <;> simp [passable, htag, hloc, hty] at h
      | some t =>
        refine ⟨uval, t, rfl, rfl, ?_⟩
        by_cases hagg : t.attrs.tag = DW_TAG_structure_type ∨ t.attrs.tag = DW_TAG_union_type
        · right
          refine ⟨hagg, ?_⟩
          cases d with
          | zero => simp [passable, htag, hloc, hty, hagg] at h
          | succ d1 =>
            refine ⟨d1, rfl, ?_⟩
            simp only [passable, htag, hloc, hty, hagg, if_true, if_false,
              Bool.and_eq_true, Bool.not_eq_true', List.all_eq_true] at h
            refine ⟨?_, h.2⟩
            intro he
            rw [he] at h
            simp at h
        · left
          refine ⟨hagg, ?_⟩
          cases hname : c.name with
          | none => cases d <;> simp [passable, htag, hloc, hty, hagg, hname] at h
          | some n =>
            refine ⟨n, rfl, ?_⟩
            cases d <;> simpa [passable, htag, hloc, hty, hagg, hname] using h

theorem walker_loop_passable_step (g : Dwarf) (d level : Nat)
    (hnest : ∀ (d1 : Nat) (t : Dwarf_Die) (off : Int), d = d1 + 1 → t.children ≠ [] →
      (∀ x ∈ t.children, passable g d1 x = true) →
      find_mark_offset_fuel g (d + 1) t (level + 1) off = some 0) :
    ∀ (pre rest : List DieAttrs) (offset : Int),
      (∀ x ∈ pre, passable g d x = true) →
      find_mark_offset_loop g
          (fun type off => find_mark_offset_fuel g (d + 1) type (level + 1) off)
          offset (pre ++ rest) =
        find_mark_offset_loop g
          (fun type off => find_mark_offset_fuel g (d + 1) type (level + 1) off)
          offset rest := by
  intro pre
  induction pre with
  | nil => intro rest offset _; rfl
  | cons c pre ih =>
    intro rest offset hp
    have ihp := ih rest offset (fun x hx => hp x (List.mem_cons_of_mem c hx))
    rw [List.cons_append]
    by_cases htag : c.tag = DW_TAG_member
    · rcases passable_cases g d c (hp c (List.mem_cons_self c pre)) with
        h | ⟨uval, t, hloc, hty, ⟨hagg, n, hname, hn⟩ | ⟨hagg, d1, hd, hne, hall⟩⟩
      · exact absurd htag h
      · rw [walker_loop_plain g _ offset c _ uval t n htag hloc hty hagg hname, if_neg hn]
        exact ihp
      · rw [walker_loop_nested g _ offset c _ uval t 0 htag hloc hty hagg
          (hnest d1 t _ hd hne hall)]
        simp only [gt_iff_lt, lt_self_iff_false, false_or,
          show ((0 : Int) = -1) = False from by simp, if_false]
        exact ihp
    · rw [walker_loop_nonmember g _ offset c _ htag]
      exact ihp

/-- The walker steps over a run of passable siblings. -/
theorem walker_loop_passable (g : Dwarf) :
    ∀ (d level : Nat), level + d = 3 →
      ∀ (pre rest : List DieAttrs) (offset : Int),
        (∀ x ∈ pre, passable g d x = true) →
        find_mark_offset_loop g
            (fun type off => find_mark_offset_fuel g (d + 1) type (level + 1) off)
            offset (pre ++ rest) =
          find_mark_offset_loop g
            (fun type off => find_mark_offset_fuel g (d + 1) type (level + 1) off)
            offset rest := by
  intro d
  induction d with
  | zero =>
    intro level _
    exact walker_loop_passable_step g 0 level (fun d1 _ _ h => by omega)
  | succ d ihd =>
    intro level hl
    apply walker_loop_passable_step g (d + 1) level
    intro d1 t off hd hne hall
    have hd1 : d1 = d := by omega
    subst hd1
    rw [walker_fuel_enter g (d1 + 1) t (level + 1) off
      (by unfold MAX_RECURSE_LEVEL; omega) hne]
    have := ihd (level + 1) (by omega) t.children [] off hall
    rw [List.append_nil] at this
    rw [this, find_mark_offset_loop]

theorem to_ptrdiff_id (x : Int) (h0 : 0 ≤ x) (h1 : x < 9223372036854775808) :
    to_ptrdiff x = x := by
  unfold to_ptrdiff
  omega

theorem walker_chain (g : Dwarf) (os : List Nat) :
    ∀ (m d acc : Nat) (die : Dwarf_Die) (level : Nat), level + d = 3 → os.length ≤ d →
      mark_chain g os m d acc die → acc + os.sum + m < 9223372036854775808 →
      find_mark_offset_fuel g (d + 2) die level (acc : Int) =
        some ((acc + os.sum + m : Nat) : Int) := by
  induction os with
  | nil =>
    intro m d acc die level hl _ hc hb
    obtain ⟨pre, c, post, t, hch, hpre, htag, hloc, hty, hagg, hname⟩ := hc
    rw [walker_fuel_enter g (d + 1) die level _ (by unfold MAX_RECURSE_LEVEL; omega)
      (by rw [hch]; simp), hch, walker_loop_passable g d level hl pre _ _ hpre,
      walker_loop_plain g _ _ c _ m t "mark" htag hloc hty hagg hname, if_pos rfl,
      to_ptrdiff_id _ (by omega) (by simp at hb; omega)]
    simp
  | cons o os ih =>
    intro m d acc die level hl hlen hc hb
    obtain ⟨pre, c, post, t, hch, hpre, htag, hloc, hty, hagg, hin, hpost⟩ := hc
    simp only [List.length_cons] at hlen
    simp only [List.sum_cons] at hb hpost ⊢
    obtain ⟨d1, rfl⟩ : ∃ d1, d = d1 + 1 := ⟨d - 1, by omega⟩
    have hrec := ih m d1 (acc + o) t (level + 1) (by omega) (by omega)
      (by simpa using hin) (by omega)
    have hoff : to_ptrdiff ((acc : Int) + (o : Int)) = ((acc + o : Nat) : Int) := by
      rw [to_ptrdiff_id _ (by omega) (by omega)]
      simp
    rw [walker_fuel_enter g (d1 + 1 + 1) die level _ (by unfold MAX_RECURSE_LEVEL; omega)
      (by rw [hch]; simp), hch, walker_loop_passable g (d1 + 1) level hl pre _ _ hpre,
      walker_loop_nested g _ _ c _ o t _ htag hloc hty hagg (by rw [hoff]; exact hrec)]
    have hsum : acc + o + os.sum + m = acc + (o + os.sum) + m := by omega
    rw [hsum]
    rcases hpost with hpos | hpost
    · rw [if_pos (Or.inl (by omega))]
    · by_cases hz : 0 < acc + (o + os.sum) + m
      · rw [if_pos (Or.inl (by omega))]
      · have hz0 : acc + (o + os.sum) + m = 0 := by omega
        rw [hz0]
        rw [if_neg (by simp)]
        have := walker_loop_passable g (d1 + 1) level hl post [] (acc : Int) hpost
        rw [List.append_nil] at this
        rw [this, find_mark_offset_loop]
        simp

/-! ## The function scanner: claims -/

theorem scan_match_fresh (walk : Dwarf_Die → Nat → Int → Option Int) (die : Dwarf_Die)
    (i : Nat) (st : Dwarf_Die) (db : ipft_symsdb) (off : Int)
    (hmark : db.mark_offset = -1 → walk st 0 0 = some off ∧ off ≠ -1)
    (hfresh : die.attrs.name ∉ symsdb_keys db) :
    dwarf_scan_func_match symsdb_put_sym2info walk die i st db =
      some (DWARF_CB_OK,
        { mark_offset := if db.mark_offset = -1 then off else db.mark_offset,
          sym2info := db.sym2info ++ [(die.attrs.name, { skb_pos := i })] }) := by
  unfold dwarf_scan_func_match symsdb_get_mark_offset
  by_cases hm : db.mark_offset = -1
  · obtain ⟨hw, ho⟩ := hmark hm
    have hfresh1 : die.attrs.name ∉
        symsdb_keys { mark_offset := off, sym2info := db.sym2info } := hfresh
    simp only [hm, if_true, hw, ho, if_false, put_mark_offset_absent db off hm,
      put_sym2info_fresh _ _ _ hfresh1]
    simp
  · simp only [hm, if_false, put_sym2info_fresh _ _ _ hfresh]
    simp

/-- C1 (amended): for every subprogram whose children are all formal
parameters, if the first parameter that carries a name and whose type is
pointer -> structure named "sk_buff" is the n-th one with n <= 4 (every earlier
parameter being unnamed or failing the chain), the database has no record under
the subprogram's name, and the walker finds a mark offset when the database has
none, then `dwarf_scan_func_die` returns OK and adds exactly the record
(subprogram name, skb_pos = n), storing the discovered mark offset when none
was there. -/
theorem scan_records_first_named_match (g : Dwarf) (die : Dwarf_Die) (db : ipft_symsdb)
    (pre post : List DieAttrs) (p : DieAttrs) (st : Dwarf_Die) (off : Int)
    (hch : die.children = pre ++ p :: post)
    (hall : ∀ c ∈ die.children, c.tag = DW_TAG_formal_parameter)
    (hpre : ∀ c ∈ pre, c.name = none ∨ chain_mismatch g c = true)
    (hname : p.name ≠ none)
    (hp : sk_buff_pointee g p = some st)
    (hn : pre.length + 1 ≤ 4)
    (hmark : db.mark_offset = -1 → find_mark_offset g st 0 0 = some off ∧ off ≠ -1)
    (hfresh : die.attrs.name ∉ symsdb_keys db) :
    dwarf_scan_func_die symsdb_put_sym2info g die db =
      some (DWARF_CB_OK,
        { mark_offset := if db.mark_offset = -1 then off else db.mark_offset,
          sym2info := db.sym2info ++ [(die.attrs.name, { skb_pos := pre.length + 1 })] }) := by
  have hpt : p.tag = DW_TAG_formal_parameter := hall p (by rw [hch]; simp)
  unfold dwarf_scan_func_die
  rw [scan_die_eq_loop, hch,
    scan_loop_skip_all _ _ g die pre 0 (p :: post) db (fun c hc => Or.inr (hpre c hc)),
    scan_loop_hit _ _ g die (0 + pre.length) p post db st hpt hname (by omega) hp,
    Nat.zero_add]
  exact scan_match_fresh _ die _ st db off hmark hfresh

/-- C1, instance: `foo (struct sk_buff *skb)` with `mark` at offset 8 yields
the record `foo: 1` and mark offset 8. -/
theorem scan_records_first_named_match_witness :
    dwarf_scan_func_die symsdb_put_sym2info example_types example_foo symsdb_empty =
      some (DWARF_CB_OK, { mark_offset := 8, sym2info := [(some "foo", { skb_pos := 1 })] }) :=
  scan_records_first_named_match example_types example_foo symsdb_empty [] []
    (param_die (some "skb") 2) (example_struct 1) 8 rfl (by decide) (by simp) (by decide)
    (by decide) (by decide) (fun _ => by decide) (by decide)

/-- C1 as stated fails: the declaration `foo (struct sk_buff *)`, whose only
child is a formal parameter of type pointer -> `struct sk_buff` (with `mark`
found at offset 8) but without a name, is scanned with result OK and no
record. -/
theorem scan_unnamed_parameter_not_recorded :
    (∀ c ∈ example_foo_unnamed.children, c.tag = DW_TAG_formal_parameter) ∧
    sk_buff_pointee example_types (param_die none 2) = some (example_struct 1) ∧
    find_mark_offset example_types (example_struct 1) 0 0 = some 8 ∧
    dwarf_scan_func_die symsdb_put_sym2info example_types example_foo_unnamed symsdb_empty =
      some (DWARF_CB_OK, symsdb_empty) := by
  refine ⟨by decide, by decide, by decide, by decide⟩

/-- C2 (amended): for every subprogram whose children are all formal
parameters and whose only parameter of type pointer -> `struct sk_buff` is the
child number n (all others failing the type chain): if n is 3 or 4, the
parameter carries a name, the database has no record under the subprogram's
name and the walker finds a mark offset when the database has none, the
function is recorded with skb_pos = n; if n is 5 or more,
`dwarf_scan_func_die` returns OK and leaves the database, records and mark
offset, as it was. -/
theorem scan_parameter_limit (g : Dwarf) (die : Dwarf_Die) (db : ipft_symsdb)
    (pre post : List DieAttrs) (p : DieAttrs) (st : Dwarf_Die) (off : Int)
    (hch : die.children = pre ++ p :: post)
    (hall : ∀ c ∈ die.children, c.tag = DW_TAG_formal_parameter)
    (hpre : ∀ c ∈ pre, chain_mismatch g c = true)
    (hp : sk_buff_pointee g p = some st) :
    ((pre.length + 1 = 3 ∨ pre.length + 1 = 4) → p.name ≠ none →
      (db.mark_offset = -1 → find_mark_offset g st 0 0 = some off ∧ off ≠ -1) →
      die.attrs.name ∉ symsdb_keys db →
      dwarf_scan_func_die symsdb_put_sym2info g die db =
        some (DWARF_CB_OK,
          { mark_offset := if db.mark_offset = -1 then off else db.mark_offset,
            sym2info := db.sym2info ++ [(die.attrs.name, { skb_pos := pre.length + 1 })] })) ∧
    (5 ≤ pre.length + 1 →
      dwarf_scan_func_die symsdb_put_sym2info g die db = some (DWARF_CB_OK, db)) := by
  have hpt : p.tag = DW_TAG_formal_parameter := hall p (by rw [hch]; simp)
  have hskip : dwarf_scan_func_loop symsdb_put_sym2info (find_mark_offset g) g die 0
      (pre ++ p :: post) db =
      dwarf_scan_func_loop symsdb_put_sym2info (find_mark_offset g) g die (0 + pre.length)
        (p :: post) db :=
    scan_loop_skip_all _ _ g die pre 0 (p :: post) db
      (fun c hc => Or.inr (Or.inr (hpre c hc)))
  unfold dwarf_scan_func_die
  rw [scan_die_eq_loop, hch, hskip]
  constructor
  · intro hn hname hmark hfresh
    rw [scan_loop_hit _ _ g die (0 + pre.length) p post db st hpt hname (by omega) hp,
      Nat.zero_add]
    exact scan_match_fresh _ die _ st db off hmark hfresh
  · intro hn
    exact scan_loop_beyond _ _ g die (p :: post) (0 + pre.length) db (by omega)

/-- C2, instances: `quux (a, b, c, skb)` is recorded with skb_pos = 4, and
`baz (a, b, c, d, skb)` leaves the empty database as it is. -/
theorem scan_parameter_limit_witness :
    dwarf_scan_func_die symsdb_put_sym2info example_types example_quux symsdb_empty =
      some (DWARF_CB_OK, { mark_offset := 8, sym2info := [(some "quux", { skb_pos := 4 })] }) ∧
    dwarf_scan_func_die symsdb_put_sym2info example_types example_baz symsdb_empty =
      some (DWARF_CB_OK, symsdb_empty) :=
  ⟨(scan_parameter_limit example_types example_quux symsdb_empty
      [param_die (some "a") 0, param_die (some "b") 0, param_die (some "c") 0] []
      (param_die (some "skb") 2) (example_struct 1) 8 rfl (by decide) (by decide)
      (by decide)).1 (Or.inr rfl) (by decide) (fun _ => by decide) (by decide),
   (scan_parameter_limit example_types example_baz symsdb_empty
      [param_die (some "a") 0, param_die (some "b") 0, param_die (some "c") 0,
        param_die (some "d") 0] []
      (param_die (some "skb") 2) (example_struct 1) 8 rfl (by decide) (by decide)
      (by decide)).2 (by decide)⟩

/-- C2 as stated fails: in the declaration
`quux (int a, int b, int c, struct sk_buff *)` the only parameter of type
pointer -> `struct sk_buff` is at index exactly 4, yet the function is not
recorded. -/
theorem scan_unnamed_fourth_parameter_not_recorded :
    (∀ c ∈ example_quux_unnamed.children, c.tag = DW_TAG_formal_parameter) ∧
    example_quux_unnamed.children =
      [param_die (some "a") 0, param_die (some "b") 0, param_die (some "c") 0] ++
        [param_die none 2] ∧
    (∀ c ∈ [param_die (some "a") 0, param_die (some "b") 0, param_die (some "c") 0],
      sk_buff_pointee example_types c = none) ∧
    sk_buff_pointee example_types (param_die none 2) = some (example_struct 1) ∧
    dwarf_scan_func_die symsdb_put_sym2info example_types example_quux_unnamed symsdb_empty =
      some (DWARF_CB_OK, symsdb_empty) := by
  refine ⟨by decide, by decide, by decide, by decide, by decide⟩

/-- The four ways a call of the scanner can end when linked with the database
of the spec. -/
theorem scan_die_cases (walk : Dwarf_Die → Nat → Int → Option Int) (g : Dwarf)
    (die : Dwarf_Die) (db : ipft_symsdb) (r : Int × ipft_symsdb)
    (h : dwarf_scan_func_die_linked symsdb_put_sym2info walk g die db = some r) :
    r = (DWARF_CB_OK, db) ∨
    (db.mark_offset = -1 ∧ r = (-1, db)) ∨
    (∃ i off, 1 ≤ i ∧ i ≤ 4 ∧ db.mark_offset = -1 ∧ off ≠ -1 ∧
      (∃ c st, sk_buff_pointee g c = some st ∧ walk st 0 0 = some off) ∧
      r = (DWARF_CB_OK, (symsdb_put_sym2info
        { mark_offset := off, sym2info := db.sym2info } die.attrs.name { skb_pos := i }).2)) ∨
    (∃ i, 1 ≤ i ∧ i ≤ 4 ∧ db.mark_offset ≠ -1 ∧
      r = (DWARF_CB_OK, (symsdb_put_sym2info db die.attrs.name { skb_pos := i }).2)) := by
  rw [scan_die_eq_loop] at h
  rcases scan_loop_cases g die die.children 0 with
    h1 | h1 | ⟨i, st, hi1, hi4, ⟨c, _, hc⟩, h1⟩
  · rw [h1] at h
    exact Or.inl (Option.some.inj h).symm
  · rw [h1] at h
    exact absurd h (by simp)
  · rw [h1] at h
    rcases scan_match_cases walk die i st db r h with
      ⟨hm, _, hr⟩ | ⟨hm, off, ho, hw, hr⟩ | ⟨hm, hr⟩
    · exact Or.inr (Or.inl ⟨hm, hr⟩)
    · exact Or.inr (Or.inr (Or.inl ⟨i, off, by omega, hi4, hm, ho, ⟨c, st, hc, hw⟩, hr⟩))
    · exact Or.inr (Or.inr (Or.inr ⟨i, by omega, hi4, hm, hr⟩))

theorem scan_sequence_invariant (P : ipft_symsdb → Prop) (g : Dwarf)
    (hstep : ∀ (die : Dwarf_Die) (db : ipft_symsdb) (r : Int × ipft_symsdb), P db →
      dwarf_scan_func_die symsdb_put_sym2info g die db = some r → P r.2)
    (dies : List Dwarf_Die) :
    ∀ (db db1 : ipft_symsdb), P db →
      scan_sequence symsdb_put_sym2info g dies db = some db1 → P db1 := by
  induction dies with
  | nil =>
    intro db db1 hp h
    rw [scan_sequence] at h
    rw [← Option.some.inj h]
    exact hp
  | cons die dies ih =>
    intro db db1 hp h
    rw [scan_sequence] at h
    cases hs : dwarf_scan_func_die symsdb_put_sym2info g die db with
    | none => simp [hs] at h
    | some r =>
      simp only [hs] at h
      exact ih r.2 db1 (hstep die db r hp hs) h

theorem put_sym2info_in_range (db : ipft_symsdb) (name : Option String) (i : Nat)
    (h : skb_pos_in_range db) (h1 : 1 ≤ i) (h4 : i ≤ 4) :
    skb_pos_in_range (symsdb_put_sym2info db name { skb_pos := i }).2 := by
  intro e he
  rcases put_sym2info_records db name { skb_pos := i } with hr | hr
  · rw [hr] at he
    exact h e he
  · rw [hr, List.mem_append, List.mem_singleton] at he
    rcases he with he | he
    · exact h e he
    · rw [he]
      exact ⟨h1, h4⟩

/-- C3: whenever all records of the database have skb_pos in {1,2,3,4}, all
records of the database left by `dwarf_scan_func_die` on any subprogram DIE
have skb_pos in {1,2,3,4}; hence every record of a database produced from the
empty one by any sequence of calls has skb_pos between 1 and 4. -/
theorem scan_keeps_skb_pos_in_range (g : Dwarf) :
    (∀ (die : Dwarf_Die) (db : ipft_symsdb) (r : Int × ipft_symsdb),
      skb_pos_in_range db →
      dwarf_scan_func_die symsdb_put_sym2info g die db = some r → skb_pos_in_range r.2) ∧
    (∀ (dies : List Dwarf_Die) (db : ipft_symsdb),
      scan_sequence symsdb_put_sym2info g dies symsdb_empty = some db →
      skb_pos_in_range db) := by
  have hstep : ∀ (die : Dwarf_Die) (db : ipft_symsdb) (r : Int × ipft_symsdb),
      skb_pos_in_range db →
      dwarf_scan_func_die symsdb_put_sym2info g die db = some r → skb_pos_in_range r.2 := by
    intro die db r hinv h
    rcases scan_die_cases (find_mark_offset g) g die db r h with
      hr | ⟨_, hr⟩ | ⟨i, off, h1, h4, _, _, _, hr⟩ | ⟨i, h1, h4, _, hr⟩
    · rw [hr]; exact hinv
    · rw [hr]; exact hinv
    · rw [hr]
      exact put_sym2info_in_range { mark_offset := off, sym2info := db.sym2info }
        die.attrs.name i hinv h1 h4
    · rw [hr]
      exact put_sym2info_in_range db die.attrs.name i hinv h1 h4
  refine ⟨hstep, ?_⟩
  intro dies db h
  exact scan_sequence_invariant skb_pos_in_range g hstep dies symsdb_empty db
    (fun e he => by simp [symsdb_empty] at he) h

/-- C3, instance: after scanning `foo`, `bar`, `baz` and `quux` from the empty
database the three records have skb_pos 1, 3 and 4. -/
theorem scan_keeps_skb_pos_in_range_witness :
    skb_pos_in_range
      { mark_offset := 8,
        sym2info := [(some "foo", { skb_pos := 1 }), (some "bar", { skb_pos := 3 }),
          (some "quux", { skb_pos := 4 })] } :=
  (scan_keeps_skb_pos_in_range example_types).2
    [example_foo, example_bar, example_baz, example_quux] _ (by decide)

theorem scan_loop_first_four
    (put : ipft_symsdb → Option String → ipft_syminfo → Int × ipft_symsdb)
    (walk : Dwarf_Die → Nat → Int → Option Int)
    (g : Dwarf) (die : Dwarf_Die) (cs : List DieAttrs) (db : ipft_symsdb)
    (h : ∀ c ∈ cs.take 4, c.tag = DW_TAG_formal_parameter → chain_mismatch g c = true) :
    dwarf_scan_func_loop put walk g die 0 cs db = some (DWARF_CB_OK, db) := by
  have hsplit : dwarf_scan_func_loop put walk g die 0 cs db =
      dwarf_scan_func_loop put walk g die 0 (cs.take 4 ++ cs.drop 4) db := by
    rw [List.take_append_drop]
  rw [hsplit, scan_loop_skip_all put walk g die (cs.take 4) 0 (cs.drop 4) db]
  · by_cases hlen : 4 ≤ cs.length
    · apply scan_loop_beyond
      rw [List.length_take]
      omega
    · rw [List.drop_eq_nil_of_le (by omega), dwarf_scan_func_loop]
  · intro c hc
    by_cases ht : c.tag = DW_TAG_formal_parameter
    · exact Or.inr (Or.inr (h c hc ht))
    · exact Or.inl ht

/-- C8: for every subprogram none of whose first four children is a formal
parameter whose type chain is pointer-type -> structure-type named "sk_buff"
(each such parameter has a missing type reference, a type that is no pointer, a
pointee that is missing or no structure, or a structure of another name),
`dwarf_scan_func_die` returns OK and leaves the database, records and mark
offset, as it was; this holds whatever `symsdb_put_sym2info` and the type
walker would do, so neither is invoked. -/
theorem scan_nonmatching_untouched
    (put : ipft_symsdb → Option String → ipft_syminfo → Int × ipft_symsdb)
    (walk : Dwarf_Die → Nat → Int → Option Int)
    (g : Dwarf) (die : Dwarf_Die) (db : ipft_symsdb)
    (h : ∀ c ∈ die.children.take 4,
      c.tag = DW_TAG_formal_parameter → chain_mismatch g c = true) :
    dwarf_scan_func_die_linked put walk g die db = some (DWARF_CB_OK, db) ∧
    dwarf_scan_func_die put g die db = some (DWARF_CB_OK, db) := by
  constructor
  · rw [scan_die_eq_loop]
    exact scan_loop_first_four put walk g die die.children db h
  · unfold dwarf_scan_func_die
    rw [scan_die_eq_loop]
    exact scan_loop_first_four put (find_mark_offset g) g die die.children db h

/-- C8, instance: `qux (struct other *o)`, where `struct other` has a `mark`
member, leaves the empty database empty, also with a walker and a
`put_sym2info` that have no result. -/
theorem scan_nonmatching_untouched_witness :
    dwarf_scan_func_die_linked (fun db _ _ => (-1, db)) (fun _ _ _ => none)
        example_types example_qux symsdb_empty = some (DWARF_CB_OK, symsdb_empty) ∧
    dwarf_scan_func_die (fun db _ _ => (-1, db)) example_types example_qux symsdb_empty =
      some (DWARF_CB_OK, symsdb_empty) :=
  scan_nonmatching_untouched (fun db _ _ => (-1, db)) (fun _ _ _ => none)
    example_types example_qux symsdb_empty (by decide)

theorem scan_match_mark_present
    (put : ipft_symsdb → Option String → ipft_syminfo → Int × ipft_symsdb)
    (walk : Dwarf_Die → Nat → Int → Option Int)
    (die : Dwarf_Die) (i : Nat) (st : Dwarf_Die) (db : ipft_symsdb)
    (hm : db.mark_offset ≠ -1) :
    dwarf_scan_func_match put walk die i st db =
      if (put db die.attrs.name { skb_pos := i }).1 = -1
      then some (-1, (put db die.attrs.name { skb_pos := i }).2)
      else some (DWARF_CB_OK, (put db die.attrs.name { skb_pos := i }).2) := by
  unfold dwarf_scan_func_match symsdb_get_mark_offset
  simp only [hm, if_false]

/-- C10: for every database whose mark offset is present and every subprogram
DIE, the result of `dwarf_scan_func_die` is the same whatever the type walker
would return (the walker is not invoked), the database handed to
`symsdb_put_sym2info`, when that is called, is the database of before the call
(no `symsdb_put_mark_offset` in between), and the stored mark offset is the
same before and after the call. -/
theorem scan_mark_offset_discovered_once (g : Dwarf) (die : Dwarf_Die) (db : ipft_symsdb)
    (hm : db.mark_offset ≠ -1) :
    (∀ put walk1 walk2,
      dwarf_scan_func_die_linked put walk1 g die db =
        dwarf_scan_func_die_linked put walk2 g die db) ∧
    (∀ put walk r, dwarf_scan_func_die_linked put walk g die db = some r →
      r = (DWARF_CB_OK, db) ∨
      ∃ i, r.2 = (put db die.attrs.name { skb_pos := i }).2) ∧
    (∀ r, dwarf_scan_func_die symsdb_put_sym2info g die db = some r →
      r.2.mark_offset = db.mark_offset) := by
  have hcases : ∀ put walk r, dwarf_scan_func_die_linked put walk g die db = some r →
      r = (DWARF_CB_OK, db) ∨
      ∃ i, r.2 = (put db die.attrs.name { skb_pos := i }).2 := by
    intro put walk r h
    rw [scan_die_eq_loop] at h
    rcases scan_loop_cases g die die.children 0 with h1 | h1 | ⟨i, st, _, _, _, h1⟩
    · rw [h1] at h
      exact Or.inl (Option.some.inj h).symm
    · rw [h1] at h
      exact absurd h (by simp)
    · rw [h1, scan_match_mark_present put walk die i st db hm] at h
      right
      refine ⟨i, ?_⟩
      split at h <;> rw [← Option.some.inj h]
  refine ⟨?_, hcases, ?_⟩
  · intro put walk1 walk2
    rw [scan_die_eq_loop, scan_die_eq_loop]
    rcases scan_loop_cases g die die.children 0 with h1 | h1 | ⟨i, st, _, _, _, h1⟩
    · rw [h1, h1]
    · rw [h1, h1]
    · rw [h1, h1, scan_match_mark_present put walk1 die i st db hm,
        scan_match_mark_present put walk2 die i st db hm]
  · intro r h
    rcases hcases symsdb_put_sym2info (find_mark_offset g) r h with hr | ⟨i, hr⟩
    · rw [hr]
    · rw [hr, put_sym2info_mark]

/-- C10, instance: with mark offset 8 stored, scanning `rx`, whose
`struct sk_buff` would give offset 20, records `rx` and keeps 8. -/
theorem scan_mark_offset_discovered_once_witness :
    find_mark_offset example_types (example_struct 3) 0 0 = some 20 ∧
    dwarf_scan_func_die symsdb_put_sym2info example_types example_rx example_db =
      some (DWARF_CB_OK, example_db_rx) ∧
    example_db_rx.mark_offset = example_db.mark_offset :=
  ⟨by decide, by decide,
    (scan_mark_offset_discovered_once example_types example_rx example_db (by decide)).2.2
      (DWARF_CB_OK, example_db_rx) (by decide)⟩

/-! ## The type walker: claims -/

/-- C4 (amended): when the member named "mark" (of a type that is no
aggregate) is reached from `die` through a chain of k < 4 nested
aggregate-typed members with member-locations o1..ok and has member-location
m, `find_mark_offset (die, 0, 0)` returns o1 + ... + ok + m, provided that the
members met before each link are passable (the walker steps over them), that
the members after a link are passable too when the cumulative offset is 0, and
that the cumulative offset is below 2^63, so fits `ptrdiff_t`. -/
theorem walker_cumulative_offset (g : Dwarf) (die : Dwarf_Die) (os : List Nat) (m : Nat)
    (hk : os.length < 4) (hc : mark_chain g os m 3 0 die)
    (hb : os.sum + m < 9223372036854775808) :
    find_mark_offset g die 0 0 = some ((os.sum + m : Nat) : Int) := by
  have h := walker_chain g os m 3 0 die 0 rfl (by omega) hc (by omega)
  simp only [Nat.zero_add] at h
  exact h

/-- C4, instance: `struct sk_buff` with an anonymous union at 16 holding an
anonymous structure at 0 holding `mark` at 4 gives 20. -/
theorem walker_cumulative_offset_witness :
    find_mark_offset example_types (example_struct 3) 0 0 = some 20 :=
  walker_cumulative_offset example_types (example_struct 3) [16, 0] 4 (by decide)
    ⟨[], member_die none (MemberLocation.udata 16) 5, [], example_struct 5, rfl,
      by simp, rfl, rfl, rfl, by decide,
      ⟨[], member_die none MemberLocation.absent 6, [], example_struct 6, rfl,
        by simp, rfl, rfl, rfl, by decide,
        ⟨[], member_die (some "mark") (MemberLocation.udata 4) 0, [], example_struct 0, rfl,
          by simp, rfl, rfl, rfl, by decide, rfl⟩,
        Or.inl (by decide)⟩,
      Or.inl (by decide)⟩
    (by decide)

theorem walker_enter_passable (g : Dwarf) (die : Dwarf_Die) (offset : Int)
    (hne : die.children ≠ []) (h : ∀ x ∈ die.children, passable g 3 x = true) :
    find_mark_offset g die 0 offset = some 0 := by
  unfold find_mark_offset
  rw [show MAX_RECURSE_LEVEL + 1 - 0 = 3 + 1 + 1 from rfl,
    walker_fuel_enter g (3 + 1) die 0 offset (by decide) hne]
  have := walker_loop_passable g 3 0 rfl die.children [] offset h
  rw [List.append_nil] at this
  rw [this, find_mark_offset_loop]

/-- C4 as stated fails, in three ways.  In `struct sk_buff { struct empty e;
int mark; }` the only member named "mark" is a direct member (k = 0) with
member-location 8, yet the walker returns -1: the childless `struct empty`
met before it ends the walk.  In `struct sk_buff { union { int mark; };
struct empty e; }` the only member named "mark" is reached through one link
with o1 = 0 and has m = 0, yet the walker returns -1 and not 0: the nested
result 0 lets the walk go on to `e`.  In `struct sk_buff { int mark; }` with
member-location 2^64 - 2 the walker returns -2. -/
theorem walker_cumulative_offset_fails :
    ((example_edge 6).children =
        [member_die (some "e") (MemberLocation.udata 0) 5,
         member_die (some "mark") (MemberLocation.udata 8) 0] ∧
      (example_edge 5).children = [] ∧
      find_mark_offset example_edges (example_edge 6) 0 0 = some (-1) ∧
      find_mark_offset example_edges (example_edge 6) 0 0 ≠ some ((8 : Nat) : Int)) ∧
    ((example_edge 3).children =
        [member_die none (MemberLocation.udata 0) 4,
         member_die (some "e") (MemberLocation.udata 8) 5] ∧
      (example_edge 4).attrs.tag = DW_TAG_union_type ∧
      (example_edge 4).children = [member_die (some "mark") (MemberLocation.udata 0) 0] ∧
      find_mark_offset example_edges (example_edge 3) 0 0 = some (-1) ∧
      find_mark_offset example_edges (example_edge 3) 0 0 ≠ some ((0 + 0 : Nat) : Int)) ∧
    ((example_edge 1).children =
        [member_die (some "mark") (MemberLocation.udata 18446744073709551614) 0] ∧
      find_mark_offset example_edges (example_edge 1) 0 0 = some (-2) ∧
      find_mark_offset example_edges (example_edge 1) 0 0 ≠
        some ((18446744073709551614 : Nat) : Int)) := by
  refine ⟨⟨by decide, by decide, by decide, by decide⟩,
    ⟨by decide, by decide, by decide, by decide, by decide⟩,
    ⟨by decide, by decide, by decide⟩⟩

/-- C5 (amended): a member named "mark" with member-location 0 (or without
the attribute) in the outermost aggregate, of a type that is no aggregate and
met after passable members only, makes `find_mark_offset (die, 0, 0)` return 0,
and 0 is also what the walker returns for an aggregate that has members, all
passable, none of them named "mark": the two results are the same value. -/
theorem walker_zero_offset_same_as_not_found (g : Dwarf) (die other : Dwarf_Die)
    (hmark : mark_chain g [] 0 3 0 die)
    (hne : other.children ≠ [])
    (hpass : ∀ x ∈ other.children, passable g 3 x = true) :
    find_mark_offset g die 0 0 = some 0 ∧ find_mark_offset g other 0 0 = some 0 := by
  constructor
  · have h := walker_chain g [] 0 3 0 die 0 rfl (by simp) hmark (by simp)
    simpa using h
  · exact walker_enter_passable g other 0 hne hpass

/-- C5, instance: `struct sk_buff { int mark; }` and `struct sk_buff { int
len; }` both give 0. -/
theorem walker_zero_offset_same_as_not_found_witness :
    find_mark_offset example_types (example_struct 11) 0 0 = some 0 ∧
    find_mark_offset example_types (example_struct 9) 0 0 = some 0 :=
  walker_zero_offset_same_as_not_found example_types (example_struct 11) (example_struct 9)
    ⟨[], member_die (some "mark") (MemberLocation.udata 0) 0, [], example_struct 0, rfl,
      by simp, rfl, rfl, rfl, by decide, rfl⟩
    (by decide) (by decide)

/-- C5 as stated fails: the aggregate whose only member is `mark` at
member-location 0 and the aggregate whose only member is `len` (it has members
and none is named "mark") get the same value from `find_mark_offset`. -/
theorem walker_zero_offset_indistinguishable :
    (example_struct 11).children = [member_die (some "mark") (MemberLocation.udata 0) 0] ∧
    (example_struct 9).children ≠ [] ∧
    (∀ c ∈ (example_struct 9).children, c.name ≠ some "mark") ∧
    find_mark_offset example_types (example_struct 11) 0 0 =
      find_mark_offset example_types (example_struct 9) 0 0 := by
  refine ⟨by decide, by decide, by decide, by decide⟩

theorem no_mark_cases (g : Dwarf) (d : Nat) (c : DieAttrs) (h : no_mark g d c = true)
    (htag : c.tag = DW_TAG_member) (uval : Nat) (t : Dwarf_Die)
    (hloc : member_uval c.data_member_location = some uval)
    (hty : dwarf_formref_die g c = some t) :
    (¬ (t.attrs.tag = DW_TAG_structure_type ∨ t.attrs.tag = DW_TAG_union_type) →
      ∃ n, c.name = some n ∧ n ≠ "mark") ∧
    ((t.attrs.tag = DW_TAG_structure_type ∨ t.attrs.tag = DW_TAG_union_type) →
      ∀ d1, d = d1 + 1 → ∀ x ∈ t.children, no_mark g d1 x = true) := by
  constructor
  · intro hagg
    cases hname : c.name with
    | none => cases d <;> simp [no_mark, htag, hloc, hty, hagg, hname] at h
    | some n =>
      refine ⟨n, rfl, ?_⟩
      cases d <;> simpa [no_mark, htag, hloc, hty, hagg, hname] using h
  · intro hagg d1 hd
    subst hd
    simpa [no_mark, htag, hloc, hty, hagg] using h

theorem walker_loop_no_mark (g : Dwarf) (recurse : Dwarf_Die → Int → Option Int)
    (offset : Int) (d : Nat) (cs : List DieAttrs) :
    (∀ c ∈ cs, c.tag = DW_TAG_member →
      ∀ uval, member_uval c.data_member_location = some uval →
      ∀ t, dwarf_formref_die g c = some t →
      (t.attrs.tag = DW_TAG_structure_type ∨ t.attrs.tag = DW_TAG_union_type) →
      ∀ off, ∃ r, recurse t off = some r ∧ (r = 0 ∨ r = -1)) →
    (∀ x ∈ cs, no_mark g d x = true) →
    ∃ r, find_mark_offset_loop g recurse offset cs = some r ∧ (r = 0 ∨ r = -1) := by
  induction cs with
  | nil => intro _ _; exact ⟨0, by rw [find_mark_offset_loop], Or.inl rfl⟩
  | cons c cs ih =>
    intro hrec hall
    have ihc := ih (fun x hx => hrec x (List.mem_cons_of_mem c hx))
      (fun x hx => hall x (List.mem_cons_of_mem c hx))
    by_cases htag : c.tag = DW_TAG_member
    · cases hloc : member_uval c.data_member_location with
      | none =>
        refine ⟨-1, ?_, Or.inr rfl⟩
        rw [find_mark_offset_loop]
        simp [htag, hloc]
      | some uval =>
        cases hty : dwarf_formref_die g c with
        | none =>
          refine ⟨-1, ?_, Or.inr rfl⟩
          rw [find_mark_offset_loop]
          simp [htag, hloc, hty]
        | some t =>
          have hnm := no_mark_cases g d c (hall c (List.mem_cons_self c cs)) htag uval t hloc hty
          by_cases hagg : t.attrs.tag = DW_TAG_structure_type ∨
              t.attrs.tag = DW_TAG_union_type
          · obtain ⟨ret, hret, hr⟩ := hrec c (List.mem_cons_self c cs) htag uval hloc t hty
              hagg (to_ptrdiff (offset + uval))
            rw [walker_loop_nested g recurse offset c cs uval t ret htag hloc hty hagg hret]
            rcases hr with hr | hr
            · rw [hr, if_neg (by simp)]
              exact ihc
            · rw [hr, if_pos (Or.inr rfl)]
              exact ⟨-1, rfl, Or.inr rfl⟩
          · obtain ⟨n, hname, hn⟩ := hnm.1 hagg
            rw [walker_loop_plain g recurse offset c cs uval t n htag hloc hty hagg hname,
              if_neg hn]
            exact ihc
    · rw [walker_loop_nonmember g recurse offset c cs htag]
      exact ihc

theorem walker_fuel_no_mark (g : Dwarf) (fuel : Nat) :
    ∀ (level : Nat) (die : Dwarf_Die) (offset : Int), level ≤ 4 → 5 ≤ fuel + level →
      (level < 4 → ∀ x ∈ die.children, no_mark g (3 - level) x = true) →
      ∃ r, find_mark_offset_fuel g fuel die level offset = some r ∧ (r = 0 ∨ r = -1) := by
  induction fuel with
  | zero => intro level die offset h4 h5 _; omega
  | succ fuel ih =>
    intro level die offset h4 h5 hall
    by_cases hl : level = MAX_RECURSE_LEVEL
    · refine ⟨-1, ?_, Or.inr rfl⟩
      rw [find_mark_offset_fuel]
      simp [hl]
    · have hl4 : level < 4 := by
        unfold MAX_RECURSE_LEVEL at hl
        omega
      by_cases hne : die.children = []
      · refine ⟨-1, ?_, Or.inr rfl⟩
        rw [find_mark_offset_fuel]
        simp [hl, hne]
      · rw [walker_fuel_enter g fuel die level offset hl hne]
        apply walker_loop_no_mark g _ offset (3 - level) die.children _ (hall hl4)
        intro c hc htag uval hloc t hty hagg off
        apply ih (level + 1) t off (by omega) (by omega)
        intro hl3 x hx
        have hnm := no_mark_cases g (3 - level) c (hall hl4 c hc) htag uval t hloc hty
        exact hnm.2 hagg (3 - (level + 1)) (by omega) x hx

/-- C6: for every aggregate none of whose members, down to the depth ceiling
of 4, is named "mark" (members of a type that is no aggregate carrying a
name), `find_mark_offset (die, 0, 0)` returns, and what it returns is 0 or -1,
the values of not-found and of failure: never a positive offset. -/
theorem walker_no_mark_not_found (g : Dwarf) (die : Dwarf_Die)
    (h : ∀ x ∈ die.children, no_mark g 3 x = true) :
    ∃ r, find_mark_offset g die 0 0 = some r ∧ (r = 0 ∨ r = -1) ∧ ¬ (0 < r) := by
  obtain ⟨r, hr, h01⟩ := walker_fuel_no_mark g (MAX_RECURSE_LEVEL + 1 - 0) 0 die 0
    (by omega) (by decide) (fun _ => h)
  refine ⟨r, hr, h01, ?_⟩
  rcases h01 with h0 | h1
  · rw [h0]; simp
  · rw [h1]; simp

/-- C6, instance: `struct sk_buff { int len; }` gives 0. -/
theorem walker_no_mark_not_found_witness :
    ∃ r, find_mark_offset example_types (example_struct 9) 0 0 = some r ∧
      (r = 0 ∨ r = -1) ∧ ¬ (0 < r) :=
  walker_no_mark_not_found example_types (example_struct 9) (by decide)

/-! ## Scanner and walker together: claims -/

/-- C7, at the failing input: `foo (struct sk_buff *skb)` where `struct
sk_buff` has the single member `len`, scanned against the empty database.  The
walker's result is 0, the value of not-found; the scanner returns OK, stores
mark offset 0 and records `foo`. -/
theorem scan_not_found_is_not_fatal :
    sk_buff_pointee example_types (param_die (some "skb") 10) = some (example_struct 9) ∧
    (example_struct 9).children ≠ [] ∧
    (∀ c ∈ (example_struct 9).children, c.name ≠ some "mark") ∧
    find_mark_offset example_types (example_struct 9) 0 0 = some 0 ∧
    dwarf_scan_func_die symsdb_put_sym2info example_types example_foo_nomark symsdb_empty =
      some (DWARF_CB_OK,
        { mark_offset := 0, sym2info := [(some "foo", { skb_pos := 1 })] }) := by
  refine ⟨by decide, by decide, by decide, by decide, by decide⟩

theorem walker_loop_lower_bound (g : Dwarf) (recurse : Dwarf_Die → Int → Option Int)
    (cs : List DieAttrs) :
    (∀ c ∈ cs, ∀ v, member_uval c.data_member_location = some v →
      v < 9223372036854775808) →
    ∀ r, find_mark_offset_loop g recurse 0 cs = some r → r = -1 ∨ 0 ≤ r := by
  induction cs with
  | nil =>
    intro _ r h
    rw [find_mark_offset_loop] at h
    right
    rw [← Option.some.inj h]
  | cons c cs ih =>
    intro hb r h
    have ihc := ih (fun x hx => hb x (List.mem_cons_of_mem c hx)) r
    by_cases htag : c.tag = DW_TAG_member
    · cases hloc : member_uval c.data_member_location with
      | none =>
        rw [find_mark_offset_loop] at h
        simp only [htag, ne_eq, not_true_eq_false, if_false, hloc] at h
        exact Or.inl (Option.some.inj h).symm
      | some uval =>
        cases hty : dwarf_formref_die g c with
        | none =>
          rw [find_mark_offset_loop] at h
          simp only [htag, ne_eq, not_true_eq_false, if_false, hloc, hty] at h
          exact Or.inl (Option.some.inj h).symm
        | some t =>
          by_cases hagg : t.attrs.tag = DW_TAG_structure_type ∨
              t.attrs.tag = DW_TAG_union_type
          · cases hret : recurse t (to_ptrdiff (0 + uval)) with
            | none =>
              rw [find_mark_offset_loop] at h
              simp only [htag, ne_eq, not_true_eq_false, if_false, hloc, hty, hagg, if_true,
                hret] at h
              exact absurd h (by simp)
            | some ret =>
              rw [walker_loop_nested g recurse 0 c cs uval t ret htag hloc hty hagg hret] at h
              by_cases hc : ret > 0 ∨ ret = -1
              · rw [if_pos hc] at h
                rw [← Option.some.inj h]
                rcases hc with hc | hc
                · exact Or.inr (by omega)
                · exact Or.inl hc
              · rw [if_neg hc] at h
                exact ihc h
          · cases hname : c.name with
            | none =>
              rw [find_mark_offset_loop] at h
              simp [htag, hloc, hty, hagg, hname] at h
            | some n =>
              rw [walker_loop_plain g recurse 0 c cs uval t n htag hloc hty hagg hname] at h
              by_cases hn : n = "mark"
              · rw [if_pos hn] at h
                have hv := hb c (List.mem_cons_self c cs) uval hloc
                rw [to_ptrdiff_id _ (by omega) (by omega)] at h
                rw [← Option.some.inj h]
                exact Or.inr (by omega)
              · rw [if_neg hn] at h
                exact ihc h
    · rw [walker_loop_nonmember g recurse 0 c cs htag] at h
      exact ihc h

theorem walker_lower_bound (g : Dwarf) (die : Dwarf_Die)
    (hb : ∀ c ∈ die.children, ∀ v, member_uval c.data_member_location = some v →
      v < 9223372036854775808)
    (r : Int) (h : find_mark_offset g die 0 0 = some r) : r = -1 ∨ 0 ≤ r := by
  unfold find_mark_offset at h
  rw [show MAX_RECURSE_LEVEL + 1 - 0 = 4 + 1 from rfl] at h
  by_cases hne : die.children = []
  · rw [find_mark_offset_fuel] at h
    simp [hne, MAX_RECURSE_LEVEL] at h
    exact Or.inl h.symm
  · rw [walker_fuel_enter g 4 die 0 0 (by decide) hne] at h
    exact walker_loop_lower_bound g _ die.children hb r h

theorem sk_buff_pointee_in_store (g : Dwarf) (c : DieAttrs) (st : Dwarf_Die)
    (h : sk_buff_pointee g c = some st) : ∃ r, g r = some st := by
  obtain ⟨pt, _, _, h3, _, _⟩ := sk_buff_pointee_chain g c st h
  unfold dwarf_formref_die at h3
  cases ht : pt.attrs.type with
  | none => simp [ht] at h3
  | some r => exact ⟨r, by simpa [ht] using h3⟩

theorem scan_keeps_mark_offset_known (g : Dwarf) (hfit : member_locations_fit g)
    (die : Dwarf_Die) (db : ipft_symsdb) (r : Int × ipft_symsdb)
    (hinv : mark_offset_known db)
    (h : dwarf_scan_func_die symsdb_put_sym2info g die db = some r) :
    mark_offset_known r.2 := by
  rcases scan_die_cases (find_mark_offset g) g die db r h with
    hr | ⟨_, hr⟩ | ⟨i, off, _, _, _, ho, ⟨c, st, hc, hw⟩, hr⟩ | ⟨i, _, _, hm, hr⟩
  · rw [hr]; exact hinv
  · rw [hr]; exact hinv
  · obtain ⟨ref, href⟩ := sk_buff_pointee_in_store g c st hc
    have hlb := walker_lower_bound g st (hfit ref st href) off hw
    rw [hr]
    unfold mark_offset_known
    rw [put_sym2info_mark]
    exact ⟨fun _ => ho, Or.inr (by rcases hlb with h1 | h1; exact absurd h1 ho; exact h1)⟩
  · rw [hr]
    unfold mark_offset_known
    rw [put_sym2info_mark]
    exact ⟨fun _ => hm, hinv.2⟩

theorem scan_keeps_mark_present (g : Dwarf) (die : Dwarf_Die) (db : ipft_symsdb)
    (r : Int × ipft_symsdb)
    (hinv : db.sym2info ≠ [] → db.mark_offset ≠ -1)
    (h : dwarf_scan_func_die symsdb_put_sym2info g die db = some r) :
    r.2.sym2info ≠ [] → r.2.mark_offset ≠ -1 := by
  rcases scan_die_cases (find_mark_offset g) g die db r h with
    hr | ⟨_, hr⟩ | ⟨i, off, _, _, _, ho, _, hr⟩ | ⟨i, _, _, hm, hr⟩
  · rw [hr]; exact hinv
  · rw [hr]; exact hinv
  · rw [hr, put_sym2info_mark]
    exact fun _ => ho
  · rw [hr, put_sym2info_mark]
    exact fun _ => hm

/-- C9 (amended): starting from the empty database (no records, mark offset
absent), after any sequence of `dwarf_scan_func_die` calls on arbitrary
subprogram DIEs, a database that holds at least one record has a mark offset
that is present (not the sentinel -1); the mark offset is >= 0 when every
member location of the debug information is below 2^63, so fits
`ptrdiff_t`. -/
theorem scan_records_imply_mark_offset (g : Dwarf)
    (dies : List Dwarf_Die) (db : ipft_symsdb)
    (h : scan_sequence symsdb_put_sym2info g dies symsdb_empty = some db)
    (hrec : db.sym2info ≠ []) :
    db.mark_offset ≠ -1 ∧ (member_locations_fit g → 0 ≤ db.mark_offset) := by
  have hpresent : db.sym2info ≠ [] → db.mark_offset ≠ -1 :=
    scan_sequence_invariant (fun d => d.sym2info ≠ [] → d.mark_offset ≠ -1) g
      (fun die db r hp hs => scan_keeps_mark_present g die db r hp hs)
      dies symsdb_empty db (fun hne => absurd rfl hne) h
  refine ⟨hpresent hrec, ?_⟩
  intro hfit
  have hinv : mark_offset_known db :=
    scan_sequence_invariant mark_offset_known g
      (fun die db r hp hs => scan_keeps_mark_offset_known g hfit die db r hp hs)
      dies symsdb_empty db ⟨fun hne => absurd rfl hne, Or.inl rfl⟩ h
  rcases hinv.2 with h1 | h1
  · exact absurd h1 (hpresent hrec)
  · exact h1

theorem example_types_fit : member_locations_fit example_types := by
  intro r die h c hc v hv
  have hr : r < 13 := by
    by_contra hge
    have : example_types r = none := by
      unfold example_types
      split <;> first | omega | rfl
    rw [this] at h
    exact absurd h (by simp)
  interval_cases r <;> rw [← Option.some.inj h] at hc <;>
    simp only [type_die, List.mem_cons, List.mem_singleton, List.not_mem_nil, or_false] at hc
  all_goals first
    | (rw [hc] at hv
       simp only [member_die, member_uval, to_word, Option.some.injEq] at hv
       omega)
    | (rcases hc with hc | hc <;> rw [hc] at hv <;>
        simp only [member_die, member_uval, to_word, Option.some.injEq] at hv <;> omega)

/-- C9, instance: the database left by scanning `foo`, `bar`, `baz` and `quux`
from the empty database has records and mark offset 8. -/
theorem scan_records_imply_mark_offset_witness :
    example_db_run.mark_offset ≠ -1 ∧ 0 ≤ example_db_run.mark_offset :=
  ⟨(scan_records_imply_mark_offset example_types
      [example_foo, example_bar, example_baz, example_quux] example_db_run
      (by decide) (by decide)).1,
   (scan_records_imply_mark_offset example_types
      [example_foo, example_bar, example_baz, example_quux] example_db_run
      (by decide) (by decide)).2 example_types_fit⟩

/-- C9 as stated fails: scanning `foo (struct sk_buff *skb)`, where `mark` has
member-location 2^64 - 2, from the empty database leaves a database that holds
the record of `foo` and the mark offset -2, which is not >= 0. -/
theorem scan_stores_negative_mark_offset :
    find_mark_offset example_edges (example_edge 1) 0 0 = some (-2) ∧
    scan_sequence symsdb_put_sym2info example_edges [example_foo_wide] symsdb_empty =
      some example_db_wide ∧
    example_db_wide.sym2info ≠ [] ∧
    ¬ (0 ≤ example_db_wide.mark_offset) := by
  refine ⟨by decide, by decide, by decide, by decide⟩

/-! ## Record names, driver and option validation: claims -/

/-- C11, at the failing inputs: a subprogram DIE without a name attribute, and
one whose name is the empty string, each with the parameter `struct sk_buff
*skb`, scanned against the empty database.  The scanner returns OK and the
record is written under the null name, respectively the empty name. -/
theorem scan_records_null_and_empty_name :
    example_nameless.attrs.name = none ∧
    dwarf_scan_func_die symsdb_put_sym2info example_types example_nameless symsdb_empty =
      some (DWARF_CB_OK, { mark_offset := 8, sym2info := [(none, { skb_pos := 1 })] }) ∧
    example_empty_name.attrs.name = some "" ∧
    dwarf_scan_func_die symsdb_put_sym2info example_types example_empty_name symsdb_empty =
      some (DWARF_CB_OK, { mark_offset := 8, sym2info := [(some "", { skb_pos := 1 })] }) := by
  refine ⟨by decide, by decide, by decide, by decide⟩

/-- C12, at the failing inputs: after a successful `dwfl_begin`, a failing
`dwfl_linux_kernel_report_kernel`, a failing `dwfl_linux_kernel_report_modules`
and a `dwarf_getfuncs` that returns -1 each make the driver return -1 with the
debug-info source still open; the run without failure returns 0 with the
source closed. -/
theorem driver_error_paths_leave_source_open :
    ipft_dwarf_fill_sym2info (fun _ db => (0, db))
        { begin_ok := true, report_kernel := -1, report_modules := 0, cus := [0] }
        symsdb_empty = (-1, { dwfl_open := true, sdb := symsdb_empty }) ∧
    ipft_dwarf_fill_sym2info (fun _ db => (0, db))
        { begin_ok := true, report_kernel := 0, report_modules := -1, cus := [0] }
        symsdb_empty = (-1, { dwfl_open := true, sdb := symsdb_empty }) ∧
    ipft_dwarf_fill_sym2info (fun _ db => (-1, db))
        { begin_ok := true, report_kernel := 0, report_modules := 0, cus := [0] }
        symsdb_empty = (-1, { dwfl_open := true, sdb := symsdb_empty }) ∧
    ipft_dwarf_fill_sym2info (fun _ db => (0, db))
        { begin_ok := true, report_kernel := 0, report_modules := 0, cus := [0] }
        symsdb_empty = (0, { dwfl_open := false, sdb := symsdb_empty }) := by
  refine ⟨by decide, by decide, by decide, by decide⟩

/-- C13: `opt_validate (opt, list)` returns true if and only if
`debug_info_type` is exactly "dwarf" or "btf" and (list is true, or both
`mark` and `perf_page_cnt` are not 0); the record left by `opt_init` is
accepted in list mode and rejected in trace mode. -/
theorem opt_validate_iff :
    (∀ (opt : ipft_tracer_opt) (list : Bool),
      opt_validate opt list = true ↔
        ((opt.debug_info_type = "dwarf" ∨ opt.debug_info_type = "btf") ∧
          (list = true ∨ (opt.mark ≠ 0 ∧ opt.perf_page_cnt ≠ 0)))) ∧
    opt_validate opt_init true = true ∧ opt_validate opt_init false = false := by
  refine ⟨?_, by decide, by decide⟩
  intro opt list
  unfold opt_validate
  by_cases hd : opt.debug_info_type = "dwarf" <;>
    by_cases hb : opt.debug_info_type = "btf" <;>
    by_cases hm : opt.mark = 0 <;>
    by_cases hp : opt.perf_page_cnt = 0 <;>
    cases list <;> simp [hd, hb, hm, hp]

/-! ## The function scanner: further claims -/

theorem count_parameters_and_others (cs : List DieAttrs) :
    cs.countP (fun c => decide (c.tag = DW_TAG_formal_parameter)) +
      cs.countP (fun c => decide (c.tag ≠ DW_TAG_formal_parameter)) = cs.length := by
  induction cs with
  | nil => rfl
  | cons c cs ih =>
    by_cases h : c.tag = DW_TAG_formal_parameter
    · simp only [List.countP_cons, h, decide_True, if_true, ne_eq, not_true_eq_false,
        decide_False, Bool.false_eq_true, if_false, List.length_cons] at ih ⊢
      omega
    · simp only [List.countP_cons, h, decide_False, Bool.false_eq_true, if_false, ne_eq,
        not_false_eq_true, decide_True, if_true, List.length_cons] at ih ⊢
      omega

/-- C17: for every subprogram whose first matching parameter (a formal
parameter carrying a name whose type chain is pointer -> `struct sk_buff`,
every earlier formal parameter being unnamed or failing the chain) is its n-th
formal parameter and is preceded by j children of other tags: when n + j <= 4
the function is recorded with skb_pos = n + j (the database holding no record
under its name yet and the walker finding a mark offset when the database has
none), and when n + j > 4 `dwarf_scan_func_die` returns OK and records
nothing, whatever n is. -/
theorem scan_index_counts_every_child (g : Dwarf) (die : Dwarf_Die) (db : ipft_symsdb)
    (pre post : List DieAttrs) (p : DieAttrs) (st : Dwarf_Die) (off : Int) (n j : Nat)
    (hch : die.children = pre ++ p :: post)
    (hn : n = pre.countP (fun c => decide (c.tag = DW_TAG_formal_parameter)) + 1)
    (hj : j = pre.countP (fun c => decide (c.tag ≠ DW_TAG_formal_parameter)))
    (hpre : ∀ c ∈ pre, c.tag = DW_TAG_formal_parameter →
      c.name = none ∨ chain_mismatch g c = true)
    (hpt : p.tag = DW_TAG_formal_parameter) (hname : p.name ≠ none)
    (hp : sk_buff_pointee g p = some st) :
    (n + j ≤ 4 →
      (db.mark_offset = -1 → find_mark_offset g st 0 0 = some off ∧ off ≠ -1) →
      die.attrs.name ∉ symsdb_keys db →
      dwarf_scan_func_die symsdb_put_sym2info g die db =
        some (DWARF_CB_OK,
          { mark_offset := if db.mark_offset = -1 then off else db.mark_offset,
            sym2info := db.sym2info ++ [(die.attrs.name, { skb_pos := n + j })] })) ∧
    (4 < n + j →
      dwarf_scan_func_die symsdb_put_sym2info g die db = some (DWARF_CB_OK, db)) := by
  have hlen : n + j = pre.length + 1 := by
    have := count_parameters_and_others pre
    omega
  have hskip : dwarf_scan_func_loop symsdb_put_sym2info (find_mark_offset g) g die 0
      (pre ++ p :: post) db =
      dwarf_scan_func_loop symsdb_put_sym2info (find_mark_offset g) g die (0 + pre.length)
        (p :: post) db := by
    apply scan_loop_skip_all
    intro c hc
    by_cases ht : c.tag = DW_TAG_formal_parameter
    · exact Or.inr (hpre c hc ht)
    · exact Or.inl ht
  unfold dwarf_scan_func_die
  rw [scan_die_eq_loop, hch, hskip, hlen]
  constructor
  · intro h4 hmark hfresh
    rw [scan_loop_hit _ _ g die (0 + pre.length) p post db st hpt hname (by omega) hp,
      Nat.zero_add]
    exact scan_match_fresh _ die _ st db off hmark hfresh
  · intro h4
    exact scan_loop_beyond _ _ g die (p :: post) (0 + pre.length) db (by omega)

/-- C17, instances: `f`, whose parameter `skb` comes after one variable, is
recorded with skb_pos 2; `h`, whose parameter `skb` comes after three variables
and a label, is not recorded. -/
theorem scan_index_counts_every_child_witness :
    dwarf_scan_func_die symsdb_put_sym2info example_types example_inflated symsdb_empty =
      some (DWARF_CB_OK, { mark_offset := 8, sym2info := [(some "f", { skb_pos := 2 })] }) ∧
    dwarf_scan_func_die symsdb_put_sym2info example_types example_inflated_out symsdb_empty =
      some (DWARF_CB_OK, symsdb_empty) :=
  ⟨(scan_index_counts_every_child example_types example_inflated symsdb_empty
      [var_die (some "tmp") 0] [] (param_die (some "skb") 2) (example_struct 1) 8 1 1
      rfl (by decide) (by decide) (by decide) rfl (by decide) (by decide)).1
      (by decide) (fun _ => by decide) (by decide),
   (scan_index_counts_every_child example_types example_inflated_out symsdb_empty
      [var_die (some "a") 0, var_die (some "b") 0, var_die (some "c") 0,
        label_die (some "out")] [] (param_die (some "skb") 2) (example_struct 1) 8 1 4
      rfl (by decide) (by decide) (by decide) rfl (by decide) (by decide)).2 (by decide)⟩

theorem chain_mismatch_pointee (g : Dwarf) (c : DieAttrs) (h : chain_mismatch g c = true) :
    sk_buff_pointee g c = none := by
  cases hp : sk_buff_pointee g c with
  | none => rfl
  | some st =>
    obtain ⟨pt, h1, h2, h3, h4, h5⟩ := sk_buff_pointee_chain g c st hp
    unfold chain_mismatch at h
    simp [h1, h2, h3, h4, h5] at h

theorem scan_loop_undefined
    (put : ipft_symsdb → Option String → ipft_syminfo → Int × ipft_symsdb)
    (walk : Dwarf_Die → Nat → Int → Option Int)
    (g : Dwarf) (die : Dwarf_Die) (i0 : Nat) (c : DieAttrs) (cs : List DieAttrs)
    (db : ipft_symsdb)
    (ht : c.tag = DW_TAG_formal_parameter) (hn : ¬ c.name = none) (hi : i0 + 1 ≤ 4)
    (hm : chain_mismatch g c = false) (hp : sk_buff_pointee g c = none) :
    dwarf_scan_func_loop put walk g die i0 (c :: cs) db = none := by
  rw [dwarf_scan_func_loop]
  unfold chain_mismatch at hm
  unfold sk_buff_pointee at hp
  cases h1 : dwarf_formref_die g c with
  | none => simp [h1] at hm
  | some pt =>
    simp only [h1] at hm hp
    by_cases h2 : pt.attrs.tag = DW_TAG_pointer_type
    · simp only [h2, ne_eq, not_true_eq_false, if_false, if_true] at hm hp
      cases h3 : dwarf_formref_die g pt.attrs with
      | none => simp [h3] at hm
      | some st =>
        simp only [h3] at hm hp
        by_cases h4 : st.attrs.tag = DW_TAG_structure_type
        · simp only [h4, ne_eq, not_true_eq_false, if_false, true_and] at hm hp
          cases h5 : st.attrs.name with
          | none => simp [ht, hn, hi, h1, h2, h3, h4, h5]
          | some n =>
            simp only [h5] at hm hp
            have hn1 : n = "sk_buff" := by simpa using hm
            simp [hn1] at hp
        · simp [h4] at hm
    · simp [h2] at hm

theorem scan_loop_first_match (g : Dwarf) (die : Dwarf_Die) (cs : List DieAttrs) :
    ∀ (i0 : Nat) (put : ipft_symsdb → Option String → ipft_syminfo → Int × ipft_symsdb)
      (walk : Dwarf_Die → Nat → Int → Option Int) (db : ipft_symsdb)
      (r : Int × ipft_symsdb),
      dwarf_scan_func_loop put walk g die i0 cs db = some r →
      (scan_first_match g i0 cs = none ∧ r = (DWARF_CB_OK, db)) ∨
      (∃ i st, scan_first_match g i0 cs = some (i, st) ∧
        dwarf_scan_func_match put walk die i st db = some r) := by
  induction cs with
  | nil =>
    intro i0 put walk db r h
    rw [dwarf_scan_func_loop] at h
    exact Or.inl ⟨by rw [scan_first_match], (Option.some.inj h).symm⟩
  | cons c cs ih =>
    intro i0 put walk db r h
    by_cases hskip : c.tag ≠ DW_TAG_formal_parameter ∨ c.name = none ∨ 4 < i0 + 1 ∨
        chain_mismatch g c = true
    · rw [scan_loop_skip put walk g die i0 c cs db hskip] at h
      have hfm : scan_first_match g i0 (c :: cs) = scan_first_match g (i0 + 1) cs := by
        rw [scan_first_match]
        by_cases hc : c.tag = DW_TAG_formal_parameter ∧ c.name ≠ none ∧ i0 + 1 ≤ 4
        · have hm : chain_mismatch g c = true := by
            rcases hskip with h1 | h1 | h1 | h1
            · exact absurd hc.1 h1
            · exact absurd h1 hc.2.1
            · omega
            · exact h1
          rw [if_pos hc, chain_mismatch_pointee g c hm]
        · rw [if_neg hc]
      rw [hfm]
      exact ih (i0 + 1) put walk db r h
    · simp only [not_or, ne_eq, not_not, not_lt, Bool.not_eq_true] at hskip
      obtain ⟨ht, hn, hi, hm⟩ := hskip
      cases hp : sk_buff_pointee g c with
      | some st =>
        right
        refine ⟨i0 + 1, st, ?_, ?_⟩
        · rw [scan_first_match, if_pos ⟨ht, hn, hi⟩, hp]
        · rw [← scan_loop_hit put walk g die i0 c cs db st ht hn hi hp]
          exact h
      | none =>
        rw [scan_loop_undefined put walk g die i0 c cs db ht hn hi hm hp] at h
        exact absurd h (by simp)

theorem scan_match_general
    (put : ipft_symsdb → Option String → ipft_syminfo → Int × ipft_symsdb)
    (g : Dwarf) (die : Dwarf_Die) (i : Nat) (st : Dwarf_Die) (db : ipft_symsdb)
    (r : Int × ipft_symsdb)
    (h : dwarf_scan_func_match put (find_mark_offset g) die i st db = some r) :
    (db.mark_offset = -1 ∧ find_mark_offset g st 0 0 = some (-1) ∧
      scan_put_input g db st = none ∧ r = (-1, db)) ∨
    (∃ db1, scan_put_input g db st = some db1 ∧
      ¬ (db.mark_offset = -1 ∧ find_mark_offset g st 0 0 = some (-1)) ∧
      r = (if (put db1 die.attrs.name { skb_pos := i }).1 = -1 then -1 else DWARF_CB_OK,
        (put db1 die.attrs.name { skb_pos := i }).2)) := by
  unfold dwarf_scan_func_match at h
  unfold scan_put_input
  by_cases hm : symsdb_get_mark_offset db = -1
  · have hm1 : db.mark_offset = -1 := hm
    simp only [hm, if_true] at h ⊢
    cases hw : find_mark_offset g st 0 0 with
    | none => simp [hw] at h
    | some off =>
      simp only [hw] at h ⊢
      by_cases ho : off = -1
      · left
        simp only [ho, if_true, Option.some.injEq] at h ⊢
        exact ⟨hm1, trivial, trivial, h.symm⟩
      · right
        simp only [ho, if_false] at h ⊢
        refine ⟨symsdb_put_mark_offset db off, rfl, ?_, ?_⟩
        · intro hc
          exact ho (Option.some.inj hc.2)
        · split at h <;> rename_i hput
          · rw [if_pos hput]; exact (Option.some.inj h).symm
          · rw [if_neg hput]; exact (Option.some.inj h).symm
  · have hm1 : ¬ db.mark_offset = -1 := hm
    right
    simp only [hm, if_false] at h ⊢
    refine ⟨db, rfl, fun hc => hm1 hc.1, ?_⟩
    split at h <;> rename_i hput
    · rw [if_pos hput]; exact (Option.some.inj h).symm
    · rw [if_neg hput]; exact (Option.some.inj h).symm

/-- C18: whenever `dwarf_scan_func_die`, linked with any
`symsdb_put_sym2info`, returns, it returns -1 or `DWARF_CB_OK`, and it returns
-1 if and only if a matching parameter is found among the first four children
and either (a) the database has no mark offset and `find_mark_offset` on the
pointee returns -1, or (b) `symsdb_put_sym2info` is called and returns -1; in
case (a) the database is left exactly as it was. -/
theorem scan_failure_characterisation
    (put : ipft_symsdb → Option String → ipft_syminfo → Int × ipft_symsdb)
    (g : Dwarf) (die : Dwarf_Die) (db : ipft_symsdb) (r : Int × ipft_symsdb)
    (h : dwarf_scan_func_die put g die db = some r) :
    (r.1 = -1 ∨ r.1 = DWARF_CB_OK) ∧
    (r.1 = -1 ↔
      ∃ i st, scan_first_match g 0 die.children = some (i, st) ∧
        ((db.mark_offset = -1 ∧ find_mark_offset g st 0 0 = some (-1)) ∨
          (∃ db1, scan_put_input g db st = some db1 ∧
            (put db1 die.attrs.name { skb_pos := i }).1 = -1))) ∧
    (∀ i st, scan_first_match g 0 die.children = some (i, st) →
      db.mark_offset = -1 → find_mark_offset g st 0 0 = some (-1) → r = (-1, db)) := by
  unfold dwarf_scan_func_die at h
  rw [scan_die_eq_loop] at h
  rcases scan_loop_first_match g die die.children 0 put (find_mark_offset g) db r h with
    ⟨hfm, hr⟩ | ⟨i, st, hfm, hmatch⟩
  · refine ⟨Or.inr (by rw [hr]), ?_, ?_⟩
    · constructor
      · intro h1
        rw [hr] at h1
        exact absurd h1 (by simp [DWARF_CB_OK])
      · rintro ⟨i, st, h1, _⟩
        rw [hfm] at h1
        exact absurd h1 (by simp)
    · intro i st h1
      rw [hfm] at h1
      exact absurd h1 (by simp)
  · rcases scan_match_general put g die i st db r hmatch with
      ⟨hm, hw, hin, hr⟩ | ⟨db1, hin, hna, hr⟩
    · refine ⟨Or.inl (by rw [hr]), ?_, ?_⟩
      · constructor
        · intro _
          exact ⟨i, st, hfm, Or.inl ⟨hm, hw⟩⟩
        · intro _
          rw [hr]
      · intro i1 st1 _ _ _
        exact hr
    · have hr1 : r.1 = if (put db1 die.attrs.name { skb_pos := i }).1 = -1 then -1
          else DWARF_CB_OK := by rw [hr]
      refine ⟨?_, ?_, ?_⟩
      · rw [hr1]
        split
        · exact Or.inl rfl
        · exact Or.inr rfl
      · constructor
        · intro h1
          rw [hr1] at h1
          by_cases hput : (put db1 die.attrs.name { skb_pos := i }).1 = -1
          · exact ⟨i, st, hfm, Or.inr ⟨db1, hin, hput⟩⟩
          · rw [if_neg hput] at h1
            exact absurd h1 (by decide)
        · rintro ⟨i1, st1, h1, h2⟩
          rw [hfm] at h1
          obtain ⟨hi, hst⟩ := Prod.mk.inj (Option.some.inj h1)
          subst hi
          subst hst
          rcases h2 with ha | ⟨db2, hin2, hput⟩
          · exact absurd ha hna
          · rw [hin] at hin2
            rw [← Option.some.inj hin2] at hput
            rw [hr1, if_pos hput]
      · intro i1 st1 h1 hm hw
        rw [hfm] at h1
        obtain ⟨_, hst⟩ := Prod.mk.inj (Option.some.inj h1)
        subst hst
        exact absurd ⟨hm, hw⟩ hna

/-- C18, instance: `foo (struct sk_buff *skb)` where `struct sk_buff` has no
members, scanned against the empty database, returns -1 by case (a) and
leaves the database empty. -/
theorem scan_failure_characterisation_witness :
    (((-1 : Int), symsdb_empty).1 = -1 ↔
      ∃ i st, scan_first_match example_nests 0 example_foo_empty.children = some (i, st) ∧
        ((symsdb_empty.mark_offset = -1 ∧ find_mark_offset example_nests st 0 0 = some (-1)) ∨
          (∃ db1, scan_put_input example_nests symsdb_empty st = some db1 ∧
            (symsdb_put_sym2info db1 example_foo_empty.attrs.name { skb_pos := i }).1 = -1))) ∧
    (∀ i st, scan_first_match example_nests 0 example_foo_empty.children = some (i, st) →
      symsdb_empty.mark_offset = -1 → find_mark_offset example_nests st 0 0 = some (-1) →
      ((-1 : Int), symsdb_empty) = (-1, symsdb_empty)) :=
  (scan_failure_characterisation symsdb_put_sym2info example_nests example_foo_empty
    symsdb_empty (-1, symsdb_empty) (by decide)).2

/-! ## The type walker: further claims -/

theorem walker_fuel_independent (g : Dwarf) (fuel1 : Nat) :
    ∀ (fuel2 level : Nat) (die : Dwarf_Die) (offset : Int), level ≤ 4 →
      5 ≤ fuel1 + level → 5 ≤ fuel2 + level →
      find_mark_offset_fuel g fuel1 die level offset =
        find_mark_offset_fuel g fuel2 die level offset := by
  induction fuel1 with
  | zero => intro fuel2 level die offset h4 h1 _; omega
  | succ fuel1 ih =>
    intro fuel2 level die offset h4 h1 h2
    obtain ⟨f2, rfl⟩ : ∃ f2, fuel2 = f2 + 1 := ⟨fuel2 - 1, by omega⟩
    by_cases hl : level = MAX_RECURSE_LEVEL
    · rw [find_mark_offset_fuel, find_mark_offset_fuel]
      simp [hl]
    · have hl4 : level < 4 := by
        unfold MAX_RECURSE_LEVEL at hl
        omega
      by_cases hne : die.children = []
      · rw [find_mark_offset_fuel, find_mark_offset_fuel]
        simp [hl, hne]
      · rw [walker_fuel_enter g fuel1 die level offset hl hne,
          walker_fuel_enter g f2 die level offset hl hne]
        have hfun : (fun type off => find_mark_offset_fuel g fuel1 type (level + 1) off) =
            (fun type off => find_mark_offset_fuel g f2 type (level + 1) off) := by
          funext type off
          exact ih f2 (level + 1) type off (by omega) (by omega) (by omega)
        rw [hfun]

theorem formref_in_store (g : Dwarf) (c : DieAttrs) (t : Dwarf_Die)
    (h : dwarf_formref_die g c = some t) : ∃ r, g r = some t := by
  unfold dwarf_formref_die at h
  cases ht : c.type with
  | none => simp [ht] at h
  | some r => exact ⟨r, by simpa [ht] using h⟩

theorem walker_loop_total (g : Dwarf) (recurse : Dwarf_Die → Int → Option Int)
    (offset : Int) (cs : List DieAttrs) :
    (∀ c ∈ cs, ∀ t, dwarf_formref_die g c = some t →
      (t.attrs.tag = DW_TAG_structure_type ∨ t.attrs.tag = DW_TAG_union_type) →
      ∀ off, ∃ r, recurse t off = some r) →
    (∀ c ∈ cs, c.tag = DW_TAG_member → ∀ t, dwarf_formref_die g c = some t →
      ¬ (t.attrs.tag = DW_TAG_structure_type ∨ t.attrs.tag = DW_TAG_union_type) →
      c.name ≠ none) →
    ∃ r, find_mark_offset_loop g recurse offset cs = some r := by
  induction cs with
  | nil => intro _ _; exact ⟨0, by rw [find_mark_offset_loop]⟩
  | cons c cs ih =>
    intro hrec hnamed
    have ihc := ih (fun x hx => hrec x (List.mem_cons_of_mem c hx))
      (fun x hx => hnamed x (List.mem_cons_of_mem c hx))
    by_cases htag : c.tag = DW_TAG_member
    · cases hloc : member_uval c.data_member_location with
      | none =>
        refine ⟨-1, ?_⟩
        rw [find_mark_offset_loop]
        simp [htag, hloc]
      | some uval =>
        cases hty : dwarf_formref_die g c with
        | none =>
          refine ⟨-1, ?_⟩
          rw [find_mark_offset_loop]
          simp [htag, hloc, hty]
        | some t =>
          by_cases hagg : t.attrs.tag = DW_TAG_structure_type ∨
              t.attrs.tag = DW_TAG_union_type
          · obtain ⟨ret, hret⟩ := hrec c (List.mem_cons_self c cs) t hty hagg
              (to_ptrdiff (offset + uval))
            rw [walker_loop_nested g recurse offset c cs uval t ret htag hloc hty hagg hret]
            by_cases hc : ret > 0 ∨ ret = -1
            · rw [if_pos hc]; exact ⟨ret, rfl⟩
            · rw [if_neg hc]; exact ihc
          · cases hname : c.name with
            | none =>
              exact absurd hname (hnamed c (List.mem_cons_self c cs) htag t hty hagg)
            | some n =>
              rw [walker_loop_plain g recurse offset c cs uval t n htag hloc hty hagg hname]
              by_cases hn : n = "mark"
              · rw [if_pos hn]; exact ⟨_, rfl⟩
              · rw [if_neg hn]; exact ihc
    · rw [walker_loop_nonmember g recurse offset c cs htag]
      exact ihc

theorem walker_fuel_total (g : Dwarf)
    (hstore : ∀ r d, g r = some d →
      (d.attrs.tag = DW_TAG_structure_type ∨ d.attrs.tag = DW_TAG_union_type) →
      plain_members_named g d) (fuel : Nat) :
    ∀ (level : Nat) (die : Dwarf_Die) (offset : Int), level ≤ 4 → 5 ≤ fuel + level →
      plain_members_named g die →
      ∃ r, find_mark_offset_fuel g fuel die level offset = some r := by
  induction fuel with
  | zero => intro level die offset h4 h5 _; omega
  | succ fuel ih =>
    intro level die offset h4 h5 hnamed
    by_cases hl : level = MAX_RECURSE_LEVEL
    · refine ⟨-1, ?_⟩
      rw [find_mark_offset_fuel]
      simp [hl]
    · have hl4 : level < 4 := by
        unfold MAX_RECURSE_LEVEL at hl
        omega
      by_cases hne : die.children = []
      · refine ⟨-1, ?_⟩
        rw [find_mark_offset_fuel]
        simp [hl, hne]
      · rw [walker_fuel_enter g fuel die level offset hl hne]
        apply walker_loop_total g _ offset die.children _ hnamed
        intro c _ t hty hagg off
        obtain ⟨r, hr⟩ := formref_in_store g c t hty
        exact ih (level + 1) t off (by omega) (by omega) (hstore r t hr hagg)

/-- C16: on every type graph, cyclic or not, the recursion of
`find_mark_offset` is bounded by the depth ceiling: started at a level up to 4,
`MAX_RECURSE_LEVEL + 1 - level` nested activations are all it ever uses (more
of them change nothing), and an activation at level 4 returns -1 at once, so
no call has a level above 4.  Hence `find_mark_offset (die, 0, off)` returns a
value whenever, in `die` and in the structures and unions of the store, every
child of tag `DW_TAG_member` whose type is no aggregate carries a name (so that
`strcmp` is given a string). -/
theorem walker_terminates (g : Dwarf) (die : Dwarf_Die) (off : Int) :
    (∀ level fuel, level ≤ MAX_RECURSE_LEVEL → MAX_RECURSE_LEVEL + 1 ≤ fuel + level →
      find_mark_offset_fuel g fuel die level off = find_mark_offset g die level off) ∧
    (∀ fuel, find_mark_offset_fuel g (fuel + 1) die MAX_RECURSE_LEVEL off = some (-1)) ∧
    ((∀ r d, g r = some d →
        (d.attrs.tag = DW_TAG_structure_type ∨ d.attrs.tag = DW_TAG_union_type) →
        plain_members_named g d) →
      plain_members_named g die →
      ∃ r, find_mark_offset g die 0 off = some r) := by
  refine ⟨?_, ?_, ?_⟩
  · intro level fuel hl hf
    unfold MAX_RECURSE_LEVEL at hl hf
    unfold find_mark_offset
    exact walker_fuel_independent g fuel (MAX_RECURSE_LEVEL + 1 - level) level die off hl hf
      (by unfold MAX_RECURSE_LEVEL; omega)
  · intro fuel
    rw [find_mark_offset_fuel]
    simp
  · intro hstore hnamed
    exact walker_fuel_total g hstore (MAX_RECURSE_LEVEL + 1 - 0) 0 die off (by omega)
      (by decide) hnamed

theorem example_cycle_named :
    ∀ r d, example_cycle r = some d →
      (d.attrs.tag = DW_TAG_structure_type ∨ d.attrs.tag = DW_TAG_union_type) →
      plain_members_named example_cycle d := by
  intro r d h _
  cases r with
  | zero =>
    rw [← Option.some.inj h]
    intro c hc _ t _ _
    simp only [type_die, List.mem_singleton] at hc
    rw [hc]
    simp [member_die]
  | succ r => exact absurd h (by simp [example_cycle])

/-- C16, instance: on `struct node { .. struct node next; }`, whose member has
the structure itself as its type, the walker returns. -/
theorem walker_terminates_witness :
    ∃ r, find_mark_offset example_cycle example_node 0 0 = some r :=
  (walker_terminates example_cycle example_node 0).2.2 example_cycle_named
    (example_cycle_named 0 example_node rfl (Or.inl rfl))

end Ipftrace
